import Mathlib

/-!
Verification of the lite-cpp editor core.

This file gives a shallow embedding of the data model and operations of the
lite-cpp text editor (src/Buffer.cpp, src/Change.cpp, src/lang/Expr.cpp,
src/lang/Environment.cpp, src/lang/Parser.cpp, src/lang/Builtin.cpp) and
proves or refutes the specification claims about them.

Modelling conventions:
- A text line (std::string of 8-bit units) is a List Char; a column is a
  unit offset, matching the source's flat-sequence view of a line.
- C++ int coordinates are Int; size_t lengths are coerced Nat.  All
  guarded container accesses in the source are embedded with the same
  guards; an access the source performs only under a bounds guard is
  embedded with List.getD, whose default is never reached under the guard.
- The undo and redo stacks (std::vector of Change with push_back or
  pop_back at the back) are Lists with the head as the top of the stack.
- IEEE doubles appear in the claims only through the comparison of a
  literal with 0.0 in isTruthy; the double payload is embedded as a
  rational number, for which that comparison is exact.
-/

/-- A text line: the buffer treats a line as a flat sequence of code units. -/
abbrev Line := List Char

/-- A (row, col) position, both C++ ints. -/
abbrev Pos := Int × Int

/-- Reads m_lines[i] under the guards the source places around the access;
out of range it yields the empty line, a case the source never reaches. -/
def lineAt (lines : List Line) (i : Int) : Line :=
  lines.getD i.toNat []

/-- Change.hpp: the tagged records of the undo and redo log. -/
inductive Change where
  | insert (row col : Int) (text : Line)
  | delete (row col : Int) (text : Line)
  | move (fromRow fromCol toRow toCol : Int)
  | select (oldSel : Option Pos) (newSel : Pos)
  | unselect (oldSel : Pos)
  deriving DecidableEq, Repr

/-- Common.hpp Direction. -/
inductive Direction where
  | up | down | left | right | nowhere
  deriving DecidableEq, Repr

/-- Buffer.hpp: the buffer state.  m_filePath is kept as a plain string. -/
structure Buffer where
  filePath : Option String := none
  lines : List Line := [[]]
  cursorRow : Int := 0
  cursorCol : Int := 0
  selectionStart : Option Pos := none
  isEdited : Bool := false
  undoStack : List Change := []
  redoStack : List Change := []
  deriving DecidableEq, Repr

namespace Buffer

/-- Buffer.cpp getLineCount. -/
def getLineCount (b : Buffer) : Int := (b.lines.length : Int)

/-- Buffer.cpp getLine: bounds-checked read access, returning the empty
string for an out-of-range row. -/
def getLine (b : Buffer) (row : Int) : Line :=
  if 0 ≤ row ∧ row < (b.lines.length : Int) then lineAt b.lines row else []

/-- Buffer.cpp hasSelection. -/
def hasSelection (b : Buffer) : Bool := b.selectionStart.isSome

/-- The line the cursor is on, m_lines[m_cursorRow]. -/
def curLine (b : Buffer) : Line := lineAt b.lines b.cursorRow

/-- Buffer.cpp calculateSelectionRange: orders anchor and cursor by
(row, then col). -/
def calculateSelectionRange (b : Buffer) : Option (Pos × Pos) :=
  match b.selectionStart with
  | none => none
  | some anchor =>
    let cursor : Pos := (b.cursorRow, b.cursorCol)
    if anchor.1 < cursor.1 ∨ (anchor.1 = cursor.1 ∧ anchor.2 < cursor.2) then
      some (anchor, cursor)
    else
      some (cursor, anchor)

/-- Buffer.cpp getSelectionRange. -/
def getSelectionRange (b : Buffer) : Option (Pos × Pos) :=
  b.calculateSelectionRange

end Buffer

/-- The intermediate full lines of getSelectedText: the loop
for i in startRow+1 .. endRow-1 appending a newline and the line,
guarded by 0 <= i < lines.length.  The second argument is the current
index i, the third the number of remaining iterations. -/
def selInterLines (lines : List Line) (i : Int) : Nat → Line
  | 0 => []
  | n + 1 =>
    (if 0 ≤ i ∧ i < (lines.length : Int) then '\n' :: lineAt lines i else [])
      ++ selInterLines lines (i + 1) n

/-- Buffer.cpp getSelectedText, lines 108-150: the text between an already
ordered pair of positions. -/
def selectedTextRange (lines : List Line) (startPos endPos : Pos) : Line :=
  let startRow := startPos.1
  let startCol := startPos.2
  let endRow := endPos.1
  let endCol := endPos.2
  if startRow = endRow then
    if 0 ≤ startRow ∧ startRow < (lines.length : Int) ∧ startCol < endCol then
      let len : Int := ((lineAt lines startRow).length : Int)
      let clampedStartCol := min startCol len
      let clampedEndCol := min endCol len
      if clampedStartCol < clampedEndCol then
        ((lineAt lines startRow).take clampedEndCol.toNat).drop clampedStartCol.toNat
      else []
    else []
  else
    (if 0 ≤ startRow ∧ startRow < (lines.length : Int) then
      let clampedStartCol := min startCol ((lineAt lines startRow).length : Int)
      (lineAt lines startRow).drop clampedStartCol.toNat
     else [])
    ++ selInterLines lines (startRow + 1) (endRow - (startRow + 1)).toNat
    ++ (if 0 ≤ endRow ∧ endRow < (lines.length : Int) ∧ 0 < endCol then
         let clampedEndCol := min endCol ((lineAt lines endRow).length : Int)
         '\n' :: (lineAt lines endRow).take clampedEndCol.toNat
        else [])

namespace Buffer

/-- Buffer.cpp getSelectedText. -/
def getSelectedText (b : Buffer) : Option Line :=
  match b.calculateSelectionRange with
  | none => none
  | some (startPos, endPos) => some (selectedTextRange b.lines startPos endPos)

/-- Buffer.cpp fixCursor: clamp the row into the line array and the column
into the current line (one position past the end allowed). -/
def fixCursor (b : Buffer) : Buffer :=
  let row := max 0 (min b.cursorRow (b.getLineCount - 1))
  let col :=
    if 0 ≤ row ∧ row < (b.lines.length : Int) then
      max 0 (min b.cursorCol ((lineAt b.lines row).length : Int))
    else 0
  { b with cursorRow := row, cursorCol := col }

/-- Buffer.cpp pushUndo: push the change and clear the redo stack. -/
def pushUndo (b : Buffer) (c : Change) : Buffer :=
  { b with undoStack := c :: b.undoStack, redoStack := [] }

/-- Buffer.cpp setCursorPosition: clamp via fixCursor and record a Move
change only when the position actually changed. -/
def setCursorPosition (b : Buffer) (row col : Int) : Buffer :=
  let oldRow := b.cursorRow
  let oldCol := b.cursorCol
  let b1 := Buffer.fixCursor { b with cursorRow := row, cursorCol := col }
  if b1.cursorRow ≠ oldRow ∨ b1.cursorCol ≠ oldCol then
    b1.pushUndo (.move oldRow oldCol b1.cursorRow b1.cursorCol)
  else b1

/-- insertTextInternal, part insertion: insert a newline-free piece of text
at the cursor, clamping the column, and advance the column. -/
def insertPart (b : Buffer) (part : Line) : Buffer :=
  if part = [] then b
  else if 0 ≤ b.cursorRow ∧ b.cursorRow < (b.lines.length : Int) ∧ 0 ≤ b.cursorCol then
    let line := b.curLine
    let clampedCol := min b.cursorCol (line.length : Int)
    { b with
        lines := b.lines.set b.cursorRow.toNat
          (line.take clampedCol.toNat ++ part ++ line.drop clampedCol.toNat),
        cursorCol := clampedCol + part.length }
  else b

/-- insertTextInternal, newline handling: split the current line at the
cursor, insert the tail as a new line after it, move to its start. -/
def splitAtCursor (b : Buffer) : Buffer :=
  if 0 ≤ b.cursorRow ∧ b.cursorRow < (b.lines.length : Int) then
    let line := b.curLine
    let clampedCol := min b.cursorCol (line.length : Int)
    { b with
        lines := (b.lines.set b.cursorRow.toNat (line.take clampedCol.toNat)).insertIdx
          (b.cursorRow.toNat + 1) (line.drop clampedCol.toNat),
        cursorRow := b.cursorRow + 1,
        cursorCol := 0 }
  else b

end Buffer

/-- Split a text on newline characters, keeping empty segments, mirroring
the find-loop of insertTextInternal: each segment before a newline is
inserted and the line split, the final segment is inserted plainly. -/
def splitOnNl : Line → List Line
  | [] => [[]]
  | c :: rest =>
    if c = '\n' then [] :: splitOnNl rest
    else
      match splitOnNl rest with
      | s :: ss => (c :: s) :: ss
      | [] => [[c]]

namespace Buffer

/-- The segment loop of insertTextInternal: all but the last segment are
followed by a line split, the last is inserted plainly. -/
def insertSegs : Buffer → List Line → Buffer
  | b, [] => b
  | b, [part] => b.insertPart part
  | b, part :: rest => Buffer.insertSegs ((b.insertPart part).splitAtCursor) rest

/-- Buffer.cpp insertTextInternal: no-op on empty text, otherwise insert
segment by segment and fix the cursor at the end. -/
def insertTextInternal (b : Buffer) (text : Line) : Buffer :=
  if text = [] then b
  else (b.insertSegs (splitOnNl text)).fixCursor

/-- One in-line character deletion, m_lines[row].erase(col, 1). -/
def eraseCharAtCursor (b : Buffer) : Buffer :=
  { b with
      lines := b.lines.set b.cursorRow.toNat
        (b.curLine.take b.cursorCol.toNat ++ b.curLine.drop (b.cursorCol.toNat + 1)) }

/-- Join the cursor line with the next one: the next line is removed and
its content appended to the current line. -/
def joinWithNextLine (b : Buffer) : Buffer :=
  { b with
      lines := (b.lines.eraseIdx (b.cursorRow.toNat + 1)).set b.cursorRow.toNat
        (b.curLine ++ lineAt b.lines (b.cursorRow + 1)) }

/-- The deletion loop of deleteTextInternal: delete forward one unit at a
time, stopping at the end of the buffer, fixing the cursor after each
step. -/
def deleteLoop : Buffer → Nat → Buffer
  | b, 0 => b
  | b, n + 1 =>
    if b.cursorRow ≥ (b.lines.length : Int) - 1 ∧ (b.curLine.length : Int) ≤ b.cursorCol then
      b
    else
      let b1 :=
        if b.cursorCol < (b.curLine.length : Int) then b.eraseCharAtCursor
        else if b.cursorRow < (b.lines.length : Int) - 1 then b.joinWithNextLine
        else b
      Buffer.deleteLoop b1.fixCursor n

/-- Buffer.cpp deleteTextInternal: move the cursor to the start (through
the public setCursorPosition, which records a Move change when the cursor
moves), delete forward the given number of units, and put the cursor back
at the start. -/
def deleteTextInternal (b : Buffer) (row col : Int) (len : Nat) : Buffer :=
  if len = 0 then b
  else
    let b1 := b.setCursorPosition row col
    let startRow := b1.cursorRow
    let startCol := b1.cursorCol
    let b2 := b1.deleteLoop len
    Buffer.fixCursor { b2 with cursorRow := startRow, cursorCol := startCol }

/-- Buffer.cpp selectStart: set the anchor only when no selection exists. -/
def selectStart (b : Buffer) : Buffer :=
  if b.selectionStart.isSome then b
  else
    let anchor : Pos := (b.cursorRow, b.cursorCol)
    Buffer.pushUndo { b with selectionStart := some anchor } (.select b.selectionStart anchor)

/-- Buffer.cpp unselect: clear the anchor only when a selection exists. -/
def unselect (b : Buffer) : Buffer :=
  match b.selectionStart with
  | none => b
  | some oldSel => Buffer.pushUndo { b with selectionStart := none } (.unselect oldSel)

/-- Buffer.cpp deleteSelection. -/
def deleteSelection (b : Buffer) : Buffer :=
  match b.calculateSelectionRange with
  | none => b
  | some (startPos, _endPos) =>
    let deletedText := (b.getSelectedText).getD []
    if deletedText = [] then b.unselect
    else
      let b1 := b.deleteTextInternal startPos.1 startPos.2 deletedText.length
      let b2 := { b1 with isEdited := true }
      let b3 := b2.unselect
      b3.pushUndo (.delete startPos.1 startPos.2 deletedText)

/-- Buffer.cpp insertChar. -/
def insertChar (b : Buffer) (c : Char) : Buffer :=
  let b0 := if b.hasSelection then b.deleteSelection else b
  let oldRow := b0.cursorRow
  let oldCol := b0.cursorCol
  let b1 := b0.insertTextInternal [c]
  let b2 := { b1 with isEdited := true }
  b2.pushUndo (.insert oldRow oldCol [c])

/-- Buffer.cpp insertNewline. -/
def insertNewline (b : Buffer) : Buffer :=
  let b0 := if b.hasSelection then b.deleteSelection else b
  let oldRow := b0.cursorRow
  let oldCol := b0.cursorCol
  let b1 := b0.insertTextInternal ['\n']
  let b2 := { b1 with isEdited := true }
  b2.pushUndo (.insert oldRow oldCol ['\n'])

/-- Buffer.cpp insertString: one undo entry for the whole string. -/
def insertString (b : Buffer) (text : Line) : Buffer :=
  if text = [] then b
  else
    let b0 := if b.hasSelection then b.deleteSelection else b
    let oldRow := b0.cursorRow
    let oldCol := b0.cursorCol
    let b1 := b0.insertTextInternal text
    let b2 := { b1 with isEdited := true }
    b2.pushUndo (.insert oldRow oldCol text)

/-- Buffer.cpp deleteCharForward. -/
def deleteCharForward (b : Buffer) : Buffer :=
  if b.hasSelection then b.deleteSelection
  else
    let oldRow := b.cursorRow
    let oldCol := b.cursorCol
    if b.cursorCol < (b.curLine.length : Int) then
      let deletedText := (b.curLine.drop b.cursorCol.toNat).take 1
      let b1 := b.deleteTextInternal b.cursorRow b.cursorCol 1
      let b2 := { b1 with isEdited := true }
      let b3 := b2.pushUndo (.delete oldRow oldCol deletedText)
      (b3.setCursorPosition oldRow oldCol).fixCursor
    else if b.cursorRow < (b.lines.length : Int) - 1 then
      let b1 := b.deleteTextInternal b.cursorRow b.cursorCol 1
      let b2 := { b1 with isEdited := true }
      let b3 := b2.pushUndo (.delete oldRow oldCol ['\n'])
      (b3.setCursorPosition oldRow oldCol).fixCursor
    else b

/-- Buffer.cpp deleteCharBackward, lines 421-458, including the
computation of the recorded deletion start from the post-deletion cursor
and line array. -/
def deleteCharBackward (b : Buffer) : Buffer :=
  if b.hasSelection then b.deleteSelection
  else
    let oldRow := b.cursorRow
    let oldCol := b.cursorCol
    if b.cursorCol > 0 then
      let deletedText := (b.curLine.drop (b.cursorCol - 1).toNat).take 1
      let b1 := b.deleteTextInternal b.cursorRow (b.cursorCol - 1) 1
      let b2 := { b1 with isEdited := true }
      let deleteStartRow := if b2.cursorCol > 0 ∨ oldRow = 0 then oldRow else oldRow - 1
      let deleteStartCol :=
        if b2.cursorCol > 0 then oldCol - 1
        else if oldRow > 0 then ((lineAt b2.lines (oldRow - 1)).length : Int) else 0
      b2.pushUndo (.delete deleteStartRow deleteStartCol deletedText)
    else if b.cursorRow > 0 then
      let prevLineLen : Int := ((lineAt b.lines (b.cursorRow - 1)).length : Int)
      let b1 := b.deleteTextInternal (b.cursorRow - 1) prevLineLen 1
      let b2 := { b1 with isEdited := true }
      let deleteStartRow := if b2.cursorCol > 0 ∨ oldRow = 0 then oldRow else oldRow - 1
      let deleteStartCol :=
        if b2.cursorCol > 0 then oldCol - 1
        else if oldRow > 0 then ((lineAt b2.lines (oldRow - 1)).length : Int) else 0
      b2.pushUndo (.delete deleteStartRow deleteStartCol ['\n'])
    else b

/-- Buffer.cpp moveCursor. -/
def moveCursor (b : Buffer) (dir : Direction) (selecting : Bool) : Buffer :=
  let oldRow := b.cursorRow
  let oldCol := b.cursorCol
  let b0 :=
    if selecting ∧ b.selectionStart.isNone then b.selectStart
    else if ¬selecting ∧ b.selectionStart.isSome then b.unselect
    else b
  let b1 :=
    match dir with
    | .up => if b0.cursorRow > 0 then { b0 with cursorRow := b0.cursorRow - 1 } else b0
    | .down =>
      if b0.cursorRow < b0.getLineCount - 1 then { b0 with cursorRow := b0.cursorRow + 1 }
      else b0
    | .left =>
      if b0.cursorCol > 0 then { b0 with cursorCol := b0.cursorCol - 1 }
      else if b0.cursorRow > 0 then
        { b0 with
            cursorRow := b0.cursorRow - 1,
            cursorCol := ((lineAt b0.lines (b0.cursorRow - 1)).length : Int) }
      else b0
    | .right =>
      if b0.cursorCol < (b0.curLine.length : Int) then { b0 with cursorCol := b0.cursorCol + 1 }
      else if b0.cursorRow < b0.getLineCount - 1 then
        { b0 with cursorRow := b0.cursorRow + 1, cursorCol := 0 }
      else b0
    | .nowhere => b0
  let b2 := b1.fixCursor
  if b2.cursorRow ≠ oldRow ∨ b2.cursorCol ≠ oldCol then
    b2.pushUndo (.move oldRow oldCol b2.cursorRow b2.cursorCol)
  else b2

end Buffer

/-- Change.cpp apply: the forward action of each change record. -/
def Change.applyCh : Change → Buffer → Buffer
  | .insert row col text, b => (b.setCursorPosition row col).insertTextInternal text
  | .delete row col text, b => (b.deleteTextInternal row col text.length).setCursorPosition row col
  | .move _ _ toRow toCol, b => b.setCursorPosition toRow toCol
  | .select _ newSel, b => { b with selectionStart := some newSel }
  | .unselect _, b => { b with selectionStart := none }

/-- Change.cpp undo: the inverse action of each change record. -/
def Change.undoCh : Change → Buffer → Buffer
  | .insert row col text, b => (b.deleteTextInternal row col text.length).setCursorPosition row col
  | .delete row col text, b => (b.setCursorPosition row col).insertTextInternal text
  | .move fromRow fromCol _ _, b => b.setCursorPosition fromRow fromCol
  | .select oldSel _, b =>
    match oldSel with
    | some s => { b with selectionStart := some s }
    | none => { b with selectionStart := none }
  | .unselect oldSel, b => { b with selectionStart := some oldSel }

namespace Buffer

/-- Buffer.cpp undo: pop, invert, move to the redo stack; the edited flag
becomes false exactly when the undo stack becomes empty. -/
def undo (b : Buffer) : Buffer :=
  match b.undoStack with
  | [] => b
  | c :: rest =>
    let b1 := c.undoCh { b with undoStack := rest }
    let b2 := { b1 with redoStack := c :: b1.redoStack }
    let b3 := { b2 with isEdited := !b2.undoStack.isEmpty }
    b3.fixCursor

/-- Buffer.cpp redo: pop, re-apply, move back to the undo stack; any redo
marks the buffer edited. -/
def redo (b : Buffer) : Buffer :=
  match b.redoStack with
  | [] => b
  | c :: rest =>
    let b1 := c.applyCh { b with redoStack := rest }
    let b2 := { b1 with undoStack := c :: b1.undoStack }
    let b3 := { b2 with isEdited := true }
    b3.fixCursor

end Buffer

/-- The outcome of the file stream operations inside saveAs, which are
external to the buffer: the open can fail, the writes can fail, or all of
it can succeed. -/
inductive SaveOutcome where
  | openFail | writeFail | ok
  deriving DecidableEq, Repr

/-- The bytes saveAs writes: each line, with a newline after every line
except the last. -/
def serializeLines (lines : List Line) : Line :=
  match lines with
  | [] => []
  | [l] => l
  | l :: rest => l ++ '\n' :: serializeLines rest

namespace Buffer

/-- Buffer.cpp saveAs, with the stream outcome passed explicitly: when the
open fails or the final good() check fails, false is returned and the
buffer is untouched; on success the path is stored and the edited flag
cleared, and the undo and redo stacks are not cleared. -/
def saveAs (b : Buffer) (path : String) (io : SaveOutcome) : Bool × Buffer :=
  match io with
  | .openFail => (false, b)
  | .writeFail => (false, b)
  | .ok => (true, { b with filePath := some path, isEdited := false })

/-- Buffer.cpp save: fails without a stored path, else saveAs to it. -/
def save (b : Buffer) (io : SaveOutcome) : Bool × Buffer :=
  match b.filePath with
  | none => (false, b)
  | some p => b.saveAs p io

end Buffer

/-- One public Buffer operation, for quantifying over operation
sequences. -/
inductive BufOp where
  | insertChar (c : Char)
  | insertNewline
  | insertString (text : Line)
  | deleteCharForward
  | deleteCharBackward
  | deleteSelection
  | setCursorPosition (row col : Int)
  | moveCursor (dir : Direction) (selecting : Bool)
  | selectStart
  | unselect
  | undo
  | redo
  deriving DecidableEq, Repr

/-- Run one public operation on the buffer. -/
def BufOp.run : BufOp → Buffer → Buffer
  | .insertChar c, b => b.insertChar c
  | .insertNewline, b => b.insertNewline
  | .insertString t, b => b.insertString t
  | .deleteCharForward, b => b.deleteCharForward
  | .deleteCharBackward, b => b.deleteCharBackward
  | .deleteSelection, b => b.deleteSelection
  | .setCursorPosition r c, b => b.setCursorPosition r c
  | .moveCursor d s, b => b.moveCursor d s
  | .selectStart, b => b.selectStart
  | .unselect, b => b.unselect
  | .undo, b => b.undo
  | .redo, b => b.redo

/-- Whether the operation is undo or redo (these replay recorded changes
rather than pushing new ones). -/
def BufOp.isUndoOrRedo : BufOp → Bool
  | .undo => true
  | .redo => true
  | _ => false

/-- Run a sequence of public operations, first element first. -/
def runOps (ops : List BufOp) (b : Buffer) : Buffer :=
  ops.foldl (fun st op => op.run st) b

/-- The cursor and line-array invariant of the spec: the line array is
never empty, the row is a valid index and the column is between 0 and the
length of the cursor line. -/
def Buffer.Valid (b : Buffer) : Prop :=
  b.lines ≠ [] ∧
  0 ≤ b.cursorRow ∧ b.cursorRow < (b.lines.length : Int) ∧
  0 ≤ b.cursorCol ∧ b.cursorCol ≤ ((lineAt b.lines b.cursorRow).length : Int)

instance (b : Buffer) : Decidable b.Valid := by
  unfold Buffer.Valid; infer_instance

/-!
Environment.cpp: chained lexical scopes.  The C++ scope is a
std::map from names to values with an optional shared parent; the map is
embedded as an association list with unique keys, observationally equal
through find.  A null parent pointer is the root constructor.
-/

/-- m_scope.find: the value bound to a name in one scope. -/
def scopeFind {V : Type} (n : String) : List (String × V) → Option V
  | [] => none
  | (k, v) :: rest => if k = n then some v else scopeFind n rest

/-- m_scope[name] = value: update the binding if the key exists, insert it
otherwise. -/
def scopeInsert {V : Type} (n : String) (v : V) : List (String × V) → List (String × V)
  | [] => [(n, v)]
  | (k, w) :: rest => if k = n then (k, v) :: rest else (k, w) :: scopeInsert n v rest

/-- it->second = value: update an existing binding in place. -/
def scopeUpdate {V : Type} (n : String) (v : V) : List (String × V) → List (String × V)
  | [] => []
  | (k, w) :: rest => if k = n then (k, v) :: rest else (k, w) :: scopeUpdate n v rest

/-- Environment.hpp: a scope and an optional parent chain. -/
inductive EnvT (V : Type) where
  | root (scope : List (String × V))
  | child (scope : List (String × V)) (parent : EnvT V)
  deriving DecidableEq, Repr

namespace EnvT

/-- The scope map of this environment. -/
def scope {V : Type} : EnvT V → List (String × V)
  | .root s => s
  | .child s _ => s

/-- The optional parent of this environment. -/
def parentEnv {V : Type} : EnvT V → Option (EnvT V)
  | .root _ => none
  | .child _ p => some p

/-- Environment.cpp define: insert or update only in the current scope. -/
def define {V : Type} (e : EnvT V) (n : String) (v : V) : EnvT V :=
  match e with
  | .root s => .root (scopeInsert n v s)
  | .child s p => .child (scopeInsert n v s) p

/-- Environment.cpp lookup: current scope first, then the parent chain. -/
def lookup {V : Type} : EnvT V → String → Option V
  | .root s, n => scopeFind n s
  | .child s p, n =>
    match scopeFind n s with
    | some v => some v
    | none => p.lookup n

/-- Environment.cpp assign: update an existing binding in the current
scope, else recurse into the parent; fails at the root when absent. -/
def assign {V : Type} : EnvT V → String → V → Bool × EnvT V
  | .root s, n, v =>
    match scopeFind n s with
    | some _ => (true, .root (scopeUpdate n v s))
    | none => (false, .root s)
  | .child s p, n, v =>
    match scopeFind n s with
    | some _ => (true, .child (scopeUpdate n v s) p)
    | none =>
      let r := p.assign n v
      (r.1, .child s r.2)

/-- The chain of scope maps, nearest first. -/
def chainScopes {V : Type} : EnvT V → List (List (String × V))
  | .root s => [s]
  | .child s p => s :: p.chainScopes

end EnvT

/-!
Expr.hpp and Expr.cpp: the tagged AST and value variant.  Recursive
members are embedded structurally instead of by shared_ptr; the kinds are
those of ExprVariant.  ExprFn carries a captured environment pointer in
the source, which no claim touches; it is not part of the embedding and
is noted on the constructor.  Doubles are embedded as rationals (see the
file header).
-/

/-- A function parameter list, ExprFnParams: the parameter names. -/
abbrev FnParams := List String

/-- The Expr variant: one closed tagged type for values and syntax. -/
inductive Expr where
  | nil
  | int (i : Int)
  | float (q : ℚ)
  | bool (b : Bool)
  | str (s : List Char)
  | sym (name : String)
  | builtinRef (name : String)
  | list (items : List Expr)
  | dict (items : List (Expr × Expr))
  | quote (e : Expr)
  | neg (e : Expr)
  | notE (e : Expr)
  | add (l r : Expr)
  | sub (l r : Expr)
  | mul (l r : Expr)
  | div (l r : Expr)
  | rem (l r : Expr)
  | ifE (c t e : Expr)
  | letE (n : String) (v body : Expr)
  | assign (n : String) (v : Expr)
  | doE (es : List Expr)
  | fnNode (params : FnParams) (body : Expr)
  | procNode (params : FnParams) (body : Expr)
  | macroNode (params : FnParams) (body : Expr)
  | apply (f : Expr) (args : List Expr)
  | tryE (body handler : Expr)
  | raise (e : Expr)
  deriving Repr

/-- Expr.cpp isTruthy: a visitor with explicit cases for nil, bool,
double, string, list and dict, and a default of true for every other
variant member, the integer alternative included. -/
def isTruthy : Expr → Bool
  | .nil => false
  | .bool b => b
  | .float q => decide (q ≠ 0)
  | .str _ => true
  | .list _ => true
  | .dict _ => true
  | _ => true

/-!
Parser.cpp: a character-at-a-time recursive-descent parser.  The C++
member state (m_source, m_position, m_currentChar) is embedded as the
source list plus an explicit position; m_currentChar always equals the
character at the position, or the NUL end-of-input marker past the end.
Loops and the mutual grammar recursion carry an explicit fuel argument so
that every definition is structurally recursive; the fuel supplied by the
top entry point is large enough that it is never exhausted on a parse the
C++ code completes.
-/

/-- The current character: the source at the position, or NUL at the end,
exactly the invariant advance maintains for m_currentChar. -/
def charAt (src : List Char) (pos : Nat) : Char :=
  src.getD pos (Char.ofNat 0)

/-- std::isspace in the C locale, on the ASCII inputs the editor feeds. -/
def isSpaceC (c : Char) : Bool :=
  c = ' ' || c = '\t' || c = '\n' || c = '\x0b' || c = '\x0c' || c = '\x0d'

/-- std::isdigit. -/
def isDigitC (c : Char) : Bool := '0' ≤ c && c ≤ '9'

/-- std::isalpha in the C locale, ASCII. -/
def isAlphaC (c : Char) : Bool := ('a' ≤ c && c ≤ 'z') || ('A' ≤ c && c ≤ 'Z')

/-- std::isalnum. -/
def isAlnumC (c : Char) : Bool := isAlphaC c || isDigitC c

/-- A parse failure: a human-readable message and the position at which
it was detected. -/
abbrev PErr := String × Nat

/-- Parser.cpp skipWhitespace loop. -/
def skipWsLoop : Nat → List Char → Nat → Nat
  | 0, _, pos => pos
  | fuel + 1, src, pos =>
    if pos < src.length ∧ isSpaceC (charAt src pos) then skipWsLoop fuel src (pos + 1)
    else pos

/-- Parser.cpp skipWhitespace. -/
def skipWs (src : List Char) (pos : Nat) : Nat :=
  skipWsLoop (src.length + 1) src pos

/-- The scan to the end of the line inside skipComment (stops at the
newline without consuming it). -/
def scanToNl : Nat → List Char → Nat → Nat
  | 0, _, pos => pos
  | fuel + 1, src, pos =>
    if pos < src.length ∧ charAt src pos ≠ '\n' then scanToNl fuel src (pos + 1)
    else pos

/-- Parser.cpp skipComment: only acts when the current character is the
comment marker. -/
def skipComment (src : List Char) (pos : Nat) : Nat :=
  if charAt src pos = '#' then scanToNl (src.length + 1) src pos
  else pos

/-- The digit-collecting loop of parseInteger, folding the decimal value
directly instead of through a string; the source holds the value in a
long long, whose overflow path (stoll throwing) is not modelled since no
claim feeds it a literal out of range. -/
def digitsLoop : Nat → List Char → Nat → Int → Int × Nat
  | 0, _, pos, acc => (acc, pos)
  | fuel + 1, src, pos, acc =>
    if pos < src.length ∧ isDigitC (charAt src pos) then
      digitsLoop fuel src (pos + 1) (acc * 10 + ((charAt src pos).toNat - '0'.toNat : Nat))
    else (acc, pos)

/-- Parser.cpp parseInteger: optional leading minus, then digits. -/
def parseInteger (src : List Char) (pos : Nat) : Except PErr (Int × Nat) :=
  let (negative, pos1) := if charAt src pos = '-' then (true, pos + 1) else (false, pos)
  if ¬ isDigitC (charAt src pos1) then
    .error ("Expected digit after potential minus for number", pos1)
  else
    let r := digitsLoop (src.length + 1) src pos1 0
    .ok (if negative then -r.1 else r.1, r.2)

/-- The fractional-digit loop of parseFloat: the digit string is folded to
a numerator and a digit count. -/
def fracDigitsLoop : Nat → List Char → Nat → Nat → Nat → Nat × Nat × Nat
  | 0, _, pos, acc, k => (acc, k, pos)
  | fuel + 1, src, pos, acc, k =>
    if pos < src.length ∧ isDigitC (charAt src pos) then
      fracDigitsLoop fuel src (pos + 1) (acc * 10 + ((charAt src pos).toNat - '0'.toNat)) (k + 1)
    else (acc, k, pos)

/-- Parser.cpp parseFloat: combines the integer part with the fraction
the way the source rebuilds and reads the literal (to_string of the
integer part, a dot, then the fraction digits); the value is kept as an
exact rational rather than a rounded double. -/
def parseFloatLit (intPart : Int) (src : List Char) (pos : Nat) : Except PErr (ℚ × Nat) :=
  let r := fracDigitsLoop (src.length + 1) src pos 0 0
  let frac : ℚ := (r.1 : ℚ) / ((10 : ℚ) ^ r.2.1)
  .ok (if intPart < 0 then (intPart : ℚ) - frac else (intPart : ℚ) + frac, r.2.2)

/-- Parser.cpp parseStringLiteral loop: recognized escapes are the double
quote, the backslash, n and t; an unrecognized escape keeps the backslash
and the character literally. -/
def strLitLoop : Nat → List Char → Nat → List Char → Except PErr (List Char × Nat)
  | 0, _, pos, _ => .error ("fuel exhausted", pos)
  | fuel + 1, src, pos, acc =>
    if pos < src.length ∧ charAt src pos ≠ '"' then
      if charAt src pos = '\\' then
        if pos + 1 ≥ src.length then .error ("Unterminated escape sequence in string", pos + 1)
        else
          let c := charAt src (pos + 1)
          let acc1 :=
            if c = '"' then acc ++ ['"']
            else if c = '\\' then acc ++ ['\\']
            else if c = 'n' then acc ++ ['\n']
            else if c = 't' then acc ++ ['\t']
            else acc ++ ['\\', c]
          strLitLoop fuel src (pos + 2) acc1
      else strLitLoop fuel src (pos + 1) (acc ++ [charAt src pos])
    else if src.length ≤ pos then .error ("Unterminated string literal", pos)
    else .ok (acc, pos + 1)

/-- Parser.cpp parseStringLiteral, opening quote already consumed. -/
def parseStringLit (src : List Char) (pos : Nat) : Except PErr (List Char × Nat) :=
  strLitLoop (src.length + 1) src pos []

/-- The valid symbol characters of parseSymbolOrKeyword. -/
def isValidSymCh (c : Char) : Bool :=
  isAlnumC c || c = '-' || c = '_' || c = '?' || c = '!' || c = '+' || c = '*' || c = '/'

/-- The name-collecting loop of parseSymbolOrKeyword. -/
def symLoop : Nat → List Char → Nat → List Char → List Char × Nat
  | 0, _, pos, acc => (acc, pos)
  | fuel + 1, src, pos, acc =>
    if pos < src.length ∧ isValidSymCh (charAt src pos) then
      symLoop fuel src (pos + 1) (acc ++ [charAt src pos])
    else (acc, pos)

/-- Parser.cpp parseSymbolOrKeyword. -/
def parseSymbolOrKeyword (src : List Char) (pos : Nat) : Except PErr (List Char × Nat) :=
  if ¬ isValidSymCh (charAt src pos) ∨ isDigitC (charAt src pos) then
    .error ("Invalid character for start of symbol or keyword", pos)
  else .ok (symLoop (src.length + 1) src pos [])

/-- The tempPos scan of parse, lines 186-199: only whitespace or line
comments remain to the end of the input. -/
def onlyWsRemains : Nat → List Char → Nat → Bool
  | 0, _, _ => true
  | fuel + 1, src, pos =>
    if pos < src.length then
      if ¬ isSpaceC (charAt src pos) then
        if charAt src pos = '#' then
          let p1 := scanToNl (src.length + 1) src pos
          onlyWsRemains fuel src (if p1 < src.length then p1 + 1 else p1)
        else false
      else onlyWsRemains fuel src (pos + 1)
    else true

/-- The tempPos scan of parseBlock, lines 384-397: only whitespace or line
comments remain before the closing brace (a comment scan runs to the end
of its line, even past a closing brace, as in the source). -/
def onlyWsUntilBrace : Nat → List Char → Nat → Bool
  | 0, _, _ => true
  | fuel + 1, src, pos =>
    if pos < src.length ∧ charAt src pos ≠ '}' then
      if ¬ isSpaceC (charAt src pos) then
        if charAt src pos = '#' then
          let p1 := scanToNl (src.length + 1) src pos
          onlyWsUntilBrace fuel src (if p1 < src.length then p1 + 1 else p1)
        else false
      else onlyWsUntilBrace fuel src (pos + 1)
    else true

/-- The characters that start a juxtaposed application argument in
parseExpression. -/
def startsArg (c : Char) : Bool :=
  isAlnumC c || c = '(' || c = '[' || c = '{' || c = '\'' || c = '"'

mutual

/-- Parser.cpp parseExpression: a factor, then the application loop. -/
def parseExpression (src : List Char) : Nat → Nat → Except PErr (Expr × Nat)
  | 0, pos => .error ("fuel exhausted", pos)
  | fuel + 1, pos =>
    match parseFactor src fuel pos with
    | .error e => .error e
    | .ok (lhs, pos1) => parseExprLoop src fuel lhs pos1
termination_by structural fuel _pos => fuel

/-- The while-true loop of parseExpression: skip whitespace, and as long
as an argument-starting character follows, greedily collect juxtaposed
factors into one application. -/
def parseExprLoop (src : List Char) : Nat → Expr → Nat → Except PErr (Expr × Nat)
  | 0, _, pos => .error ("fuel exhausted", pos)
  | fuel + 1, lhs, pos =>
    let pos1 := skipWs src pos
    if pos1 < src.length ∧ startsArg (charAt src pos1) then
      match parseArgsLoop src fuel [] pos1 with
      | .error e => .error e
      | .ok (args, pos2) =>
        if args.isEmpty then .ok (lhs, pos2)
        else parseExprLoop src fuel (.apply lhs args) pos2
    else .ok (lhs, pos1)
termination_by structural fuel _a _pos => fuel

/-- The argument loop of parseExpression: parse factors while an
argument-starting character is current, skipping whitespace after each. -/
def parseArgsLoop (src : List Char) : Nat → List Expr → Nat → Except PErr (List Expr × Nat)
  | 0, _, pos => .error ("fuel exhausted", pos)
  | fuel + 1, acc, pos =>
    if pos < src.length ∧ startsArg (charAt src pos) then
      match parseFactor src fuel pos with
      | .error e => .error e
      | .ok (a, pos1) => parseArgsLoop src fuel (acc ++ [a]) (skipWs src pos1)
    else .ok (acc, pos)
termination_by structural fuel _a _pos => fuel

/-- Parser.cpp parseFactor: optional unary minus or bang, then a term. -/
def parseFactor (src : List Char) : Nat → Nat → Except PErr (Expr × Nat)
  | 0, pos => .error ("fuel exhausted", pos)
  | fuel + 1, pos =>
    let pos1 := skipWs src pos
    if charAt src pos1 = '-' then
      match parseFactor src fuel (pos1 + 1) with
      | .error e => .error e
      | .ok (e, pos2) => .ok (.neg e, pos2)
    else if charAt src pos1 = '!' then
      match parseFactor src fuel (pos1 + 1) with
      | .error e => .error e
      | .ok (e, pos2) => .ok (.notE e, pos2)
    else parseTerm src fuel pos1
termination_by structural fuel _pos => fuel

/-- Parser.cpp parseTerm: delegates to parseAtom. -/
def parseTerm (src : List Char) : Nat → Nat → Except PErr (Expr × Nat)
  | 0, pos => .error ("fuel exhausted", pos)
  | fuel + 1, pos => parseAtom src fuel pos
termination_by structural fuel _pos => fuel

/-- Parser.cpp parseAtom: numbers, strings, lists, blocks, groups,
quotes, keywords and symbols. -/
def parseAtom (src : List Char) : Nat → Nat → Except PErr (Expr × Nat)
  | 0, pos => .error ("fuel exhausted", pos)
  | fuel + 1, pos =>
    let pos1 := skipWs src pos
    let c := charAt src pos1
    if isDigitC c ∨ (c = '-' ∧ isDigitC (charAt src (pos1 + 1))) then
      match parseInteger src pos1 with
      | .error e => .error e
      | .ok (intPart, pos2) =>
        if charAt src pos2 = '.' then
          match parseFloatLit intPart src (pos2 + 1) with
          | .error e => .error e
          | .ok (q, pos3) => .ok (.float q, pos3)
        else .ok (.int intPart, pos2)
    else if c = '"' then
      match parseStringLit src (pos1 + 1) with
      | .error e => .error e
      | .ok (s, pos2) => .ok (.str s, pos2)
    else if c = '[' then parseListForm src fuel pos1
    else if c = '{' then parseBlockForm src fuel pos1
    else if c = '(' then parseGroupForm src fuel pos1
    else if c = '\'' then parseQuoteForm src fuel pos1
    else if isAlphaC c ∨ c = '_' then
      match parseSymbolOrKeyword src pos1 with
      | .error e => .error e
      | .ok (name, pos2) =>
        let s := String.mk name
        if s = "True" then .ok (.bool true, pos2)
        else if s = "False" then .ok (.bool false, pos2)
        else if s = "None" then .ok (.nil, pos2)
        else .ok (.sym s, pos2)
    else .error ("Unexpected character encountered", pos1)
termination_by structural fuel _pos => fuel

/-- Parser.cpp parseList, opening bracket current: empty list, or items
separated by commas with a trailing comma allowed. -/
def parseListForm (src : List Char) : Nat → Nat → Except PErr (Expr × Nat)
  | 0, pos => .error ("fuel exhausted", pos)
  | fuel + 1, pos =>
    let pos1 := skipWs src (pos + 1)
    if charAt src pos1 = ']' then .ok (.list [], pos1 + 1)
    else
      match parseListItems src fuel [] pos1 with
      | .error e => .error e
      | .ok (items, pos2) => .ok (.list items, pos2)
termination_by structural fuel _pos => fuel

/-- The item loop of parseList. -/
def parseListItems (src : List Char) : Nat → List Expr → Nat → Except PErr (List Expr × Nat)
  | 0, _, pos => .error ("fuel exhausted", pos)
  | fuel + 1, acc, pos =>
    match parseExpression src fuel pos with
    | .error e => .error e
    | .ok (item, pos1) =>
      let pos2 := skipWs src pos1
      if charAt src pos2 = ']' then .ok (acc ++ [item], pos2 + 1)
      else if charAt src pos2 = ',' then
        let pos3 := skipWs src (pos2 + 1)
        if charAt src pos3 = ']' then .ok (acc ++ [item], pos3 + 1)
        else parseListItems src fuel (acc ++ [item]) pos3
      else .error ("Expected comma or closing bracket in list literal", pos2)
termination_by structural fuel _a _pos => fuel

/-- Parser.cpp parseGroup: a parenthesized expression, producing no node
of its own. -/
def parseGroupForm (src : List Char) : Nat → Nat → Except PErr (Expr × Nat)
  | 0, pos => .error ("fuel exhausted", pos)
  | fuel + 1, pos =>
    match parseExpression src fuel (pos + 1) with
    | .error e => .error e
    | .ok (e, pos1) =>
      let pos2 := skipWs src pos1
      if charAt src pos2 ≠ ')' then .error ("Expected closing parenthesis of group", pos2)
      else .ok (e, pos2 + 1)
termination_by structural fuel _pos => fuel

/-- Parser.cpp parseBlock, opening brace current: a sequence of
semicolon-separated expressions wrapped in a do node. -/
def parseBlockForm (src : List Char) : Nat → Nat → Except PErr (Expr × Nat)
  | 0, pos => .error ("fuel exhausted", pos)
  | fuel + 1, pos =>
    match parseBlockLoop src fuel [] (pos + 1) with
    | .error e => .error e
    | .ok (es, pos1) =>
      if src.length ≤ pos1 then .error ("Unterminated block", pos1)
      else .ok (.doE es, pos1 + 1)
termination_by structural fuel _pos => fuel

/-- The expression loop of parseBlock. -/
def parseBlockLoop (src : List Char) : Nat → List Expr → Nat → Except PErr (List Expr × Nat)
  | 0, _, pos => .error ("fuel exhausted", pos)
  | fuel + 1, acc, pos =>
    if pos < src.length ∧ charAt src pos ≠ '}' then
      let pos1 := skipWs src (skipComment src pos)
      if charAt src pos1 = '}' then .ok (acc, pos1)
      else
        match parseExpression src fuel pos1 with
        | .error e => .error e
        | .ok (e1, pos2) =>
          let pos3 := skipWs src pos2
          if charAt src pos3 = ';' then
            let pos4 := skipWs src (pos3 + 1)
            if charAt src pos4 = '}' then .ok (acc ++ [e1], pos4)
            else parseBlockLoop src fuel (acc ++ [e1]) pos4
          else if charAt src pos3 ≠ '}' then
            if onlyWsUntilBrace (src.length + 1) src pos3 then
              parseBlockLoop src fuel (acc ++ [e1]) pos3
            else .error ("Expected semicolon or closing brace after expression in block", pos3)
          else parseBlockLoop src fuel (acc ++ [e1]) pos3
    else .ok (acc, pos)
termination_by structural fuel _a _pos => fuel

/-- Parser.cpp parseQuote: wraps the following expression unevaluated. -/
def parseQuoteForm (src : List Char) : Nat → Nat → Except PErr (Expr × Nat)
  | 0, pos => .error ("fuel exhausted", pos)
  | fuel + 1, pos =>
    match parseExpression src fuel (pos + 1) with
    | .error e => .error e
    | .ok (e, pos1) => .ok (.quote e, pos1)
termination_by structural fuel _pos => fuel
end

/-- The top-level expression loop of parse, lines 163-207. -/
def parseTopLoop (src : List Char) : Nat → List Expr → Nat → Except PErr (List Expr × Nat)
  | 0, _, pos => .error ("fuel exhausted", pos)
  | fuel + 1, acc, pos =>
    if pos < src.length then
      let pos1 := skipWs src (skipComment src pos)
      if src.length ≤ pos1 then .ok (acc, pos1)
      else
        match parseExpression src fuel pos1 with
        | .error e => .error e
        | .ok (e1, pos2) =>
          let pos3 := skipWs src pos2
          if pos3 < src.length then
            if charAt src pos3 = ';' then
              let pos4 := skipWs src (pos3 + 1)
              if src.length ≤ pos4 then .ok (acc ++ [e1], pos4)
              else parseTopLoop src fuel (acc ++ [e1]) pos4
            else if onlyWsRemains (src.length + 1) src pos3 then .ok (acc ++ [e1], pos3)
            else .error ("Expected semicolon or end of input after expression", pos3)
          else parseTopLoop src fuel (acc ++ [e1]) pos3
    else .ok (acc, pos)

/-- Fuel ample for any parse the source code completes: the recursion
depth and the number of loop steps are both bounded by the input length. -/
def parseFuel (src : List Char) : Nat := src.length * 8 + 16

/-- Parser.cpp parse: empty input is an empty do block; a single
expression is returned unwrapped, several are wrapped in a do node. -/
def parseProgram (sourceCode : String) : Except PErr Expr :=
  let src := sourceCode.data
  if src = [] then .ok (.doE [])
  else
    match parseTopLoop src (parseFuel src) [] (skipWs src 0) with
    | .error e => .error e
    | .ok (es, _) =>
      match es with
      | [e] => .ok e
      | _ => .ok (.doE es)

/-!
Builtin.cpp: the add builtin and its argument evaluation helper.
-/

/-- A runtime failure message. -/
abbrev RErr := String

/-- Modelled from the spec: Interpreter.evaluate is declared in
lang/Interpreter.hpp but its implementation file is not part of the
repository source, so the fragment the add builtin needs is taken from
section 4.4 of the specification: scalars, builtin references and
Fn/Proc/Macro nodes evaluate to themselves, a symbol evaluates by lookup
in the given environment and an unresolved symbol is a runtime failure.
Node kinds beyond that fragment are not modelled and report a failure
naming the omission. -/
def evaluateSpec (env : EnvT Expr) (e : Expr) : Except RErr Expr :=
  match e with
  | .nil | .int _ | .float _ | .bool _ | .str _ => .ok e
  | .builtinRef _ => .ok e
  | .fnNode _ _ | .procNode _ _ | .macroNode _ _ => .ok e
  | .sym n =>
    match env.lookup n with
    | some v => .ok v
    | none => .error "unbound name"
  | _ => .error "node kind outside the modelled interpreter fragment"

/-- Builtin.cpp evalArg: evaluates one argument node against an
interpreter built over the caller environment (the source constructs the
interpreter from a copy of the caller environment, which resolves the
same names to the same values). -/
def evalArg (arg : Expr) (env : EnvT Expr) : Except RErr Expr :=
  evaluateSpec env arg

/-- The visit of builtin_add: integer, float-promoting, string and list
addition; anything else is a runtime failure. -/
def addVals : Expr → Expr → Except RErr Expr
  | .int a, .int b => .ok (.int (a + b))
  | .float a, .float b => .ok (.float (a + b))
  | .int a, .float b => .ok (.float ((a : ℚ) + b))
  | .float a, .int b => .ok (.float (a + (b : ℚ)))
  | .str a, .str b => .ok (.str (a ++ b))
  | .list a, .list b => .ok (.list (a ++ b))
  | _, _ => .error "Builtin add cannot add these operand types"

/-- The accumulation loop of builtin_add over the remaining arguments. -/
def addLoop (env : EnvT Expr) (acc : Expr) : List Expr → Except RErr Expr
  | [] => .ok acc
  | a :: rest =>
    match evalArg a env with
    | .error e => .error e
    | .ok cur =>
      match addVals acc cur with
      | .error e => .error e
      | .ok r => addLoop env r rest

/-- Builtin.cpp builtin_add: no arguments give integer zero, otherwise
the first evaluated argument seeds a left fold of addVals over the
evaluated rest. -/
def builtin_add (args : List Expr) (env : EnvT Expr) : Except RErr Expr :=
  match args with
  | [] => .ok (.int 0)
  | a0 :: rest =>
    match evalArg a0 env with
    | .error e => .error e
    | .ok r0 => addLoop env r0 rest


/-!
Theorems.  Shared projection lemmas about the buffer operations come
first, then one theorem per claim (with its witness or counterexample
where required).
-/

/-- Whether a change record is an Unselect entry. -/
def Change.isUnselectCh : Change → Bool
  | .unselect _ => true
  | _ => false

/-- C10: getLine is total: it yields the empty string for every row
outside the valid range, and the stored line unchanged for every valid
row. -/
theorem getLine_total (b : Buffer) (row : Int) :
    ((row < 0 ∨ (b.lines.length : Int) ≤ row) → b.getLine row = []) ∧
    (∀ h : row.toNat < b.lines.length,
      0 ≤ row → b.getLine row = b.lines.get ⟨row.toNat, h⟩) := by
  constructor
  · intro h
    unfold Buffer.getLine
    rw [if_neg]
    omega
  · intro h hnn
    unfold Buffer.getLine lineAt
    rw [if_pos (by omega), List.getD_eq_getElem?_getD, List.getElem?_eq_getElem h]
    rfl

/-- Witness for the C10 theorem at a concrete buffer and rows. -/
theorem getLine_total_witness :
    Buffer.getLine { lines := [['x']] } 5 = [] ∧
    Buffer.getLine { lines := [['x']] } 0 = ['x'] := by
  constructor
  · exact (getLine_total { lines := [['x']] } 5).1 (by decide)
  · exact ((getLine_total { lines := [['x']] } 0).2 (by decide) (by decide)).trans rfl

/-- C3 counterexample: the float zero value is falsy for isTruthy even
though it is neither the boolean False nor None, so the claim that every
value other than False and None is truthy fails at the float zero. -/
theorem isTruthy_claim_fails_at_float_zero :
    isTruthy (.float 0) = false ∧
    Expr.float 0 ≠ Expr.bool false ∧ Expr.float 0 ≠ Expr.nil := by
  refine ⟨rfl, by simp, by simp⟩

/-- C3 amended: isTruthy returns false exactly for the boolean False, for
None, and for float values equal to zero; every other value, the integer
zero, the empty string and the empty list included, is truthy. -/
theorem isTruthy_false_iff (e : Expr) :
    isTruthy e = false ↔ (e = .bool false ∨ e = .nil ∨ e = .float 0) := by
  cases e <;> simp [isTruthy]

/-- C9: a successful saveAs clears the edited flag, stores exactly the
path passed, and leaves the undo and redo stacks unchanged; a failed
saveAs leaves the edited flag and the file path as they were. -/
theorem saveAs_spec (b : Buffer) (path : String) (io : SaveOutcome) :
    ((b.saveAs path io).1 = true →
      (b.saveAs path io).2.isEdited = false ∧
      (b.saveAs path io).2.filePath = some path ∧
      (b.saveAs path io).2.undoStack = b.undoStack ∧
      (b.saveAs path io).2.redoStack = b.redoStack) ∧
    ((b.saveAs path io).1 = false →
      (b.saveAs path io).2.isEdited = b.isEdited ∧
      (b.saveAs path io).2.filePath = b.filePath) := by
  cases io <;> simp [Buffer.saveAs]

/-- Witness for the C9 theorem at a concrete buffer, path and both stream
outcomes. -/
theorem saveAs_spec_witness :
    ((Buffer.saveAs { isEdited := true } "f" .ok).2.isEdited = false ∧
      (Buffer.saveAs { isEdited := true } "f" .ok).2.filePath = some "f") ∧
    ((Buffer.saveAs { isEdited := true } "f" .openFail).2.isEdited = true ∧
      (Buffer.saveAs { isEdited := true } "f" .openFail).2.filePath = none) := by
  constructor
  · have h := (saveAs_spec { isEdited := true } "f" .ok).1 rfl
    exact ⟨h.1, h.2.1⟩
  · have h := (saveAs_spec { isEdited := true } "f" .openFail).2 rfl
    exact ⟨h.1.trans rfl, h.2.trans rfl⟩

/-- C6: selectStart is a no-op when a selection already exists and
unselect is a no-op when none exists (no state change, no pushed change);
both are idempotent, and two consecutive unselect calls on a selected
buffer record exactly one Unselect entry. -/
theorem select_unselect_idempotent (b : Buffer) :
    (b.selectionStart.isSome → b.selectStart = b) ∧
    (b.selectionStart = none → b.unselect = b) ∧
    b.unselect.unselect = b.unselect ∧
    b.selectStart.selectStart = b.selectStart ∧
    (b.selectionStart.isSome →
      (b.unselect.unselect.undoStack.countP Change.isUnselectCh =
        b.undoStack.countP Change.isUnselectCh + 1)) := by
  have hsel : ∀ b1 : Buffer, b1.selectionStart.isSome → b1.selectStart = b1 := by
    intro b1 h
    unfold Buffer.selectStart
    rw [if_pos h]
  have hselN : ∀ b1 : Buffer, b1.selectionStart = none →
      b1.selectStart = Buffer.pushUndo
        { b1 with selectionStart := some (b1.cursorRow, b1.cursorCol) }
        (.select b1.selectionStart (b1.cursorRow, b1.cursorCol)) := by
    intro b1 h
    unfold Buffer.selectStart
    rw [if_neg (by rw [h]; simp)]
  have hunN : ∀ b1 : Buffer, b1.selectionStart = none → b1.unselect = b1 := by
    intro b1 h
    unfold Buffer.unselect
    rw [h]
  have hunS : ∀ (b1 : Buffer) (s : Pos), b1.selectionStart = some s →
      b1.unselect = Buffer.pushUndo { b1 with selectionStart := none } (.unselect s) := by
    intro b1 s h
    unfold Buffer.unselect
    rw [h]
  refine ⟨hsel b, hunN b, ?_, ?_, ?_⟩
  · cases hs : b.selectionStart with
    | none => rw [hunN b hs, hunN b hs]
    | some s => rw [hunS b s hs, hunN _ (by rfl)]
  · cases hs : b.selectionStart with
    | none => rw [hselN b hs, hsel _ (by rfl)]
    | some s => rw [hsel b (by rw [hs]; rfl), hsel b (by rw [hs]; rfl)]
  · intro h
    cases hs : b.selectionStart with
    | none => rw [hs] at h; cases h
    | some s =>
      rw [hunS b s hs, hunN _ (by rfl)]
      simp [Buffer.pushUndo, Change.isUnselectCh, List.countP_cons]

/-- Witness for the C6 theorem on a concrete selected buffer. -/
theorem select_unselect_idempotent_witness :
    (let b : Buffer := { selectionStart := some (0, 0) };
     b.unselect.unselect.undoStack.countP Change.isUnselectCh =
       b.undoStack.countP Change.isUnselectCh + 1 ∧ b.selectStart = b) := by
  refine ⟨(select_unselect_idempotent _).2.2.2.2 rfl, (select_unselect_idempotent _).1 rfl⟩

/-- C8: parsing the source text add 1 2 yields the application of the
symbol add to the integer literals 1 and 2, and the add builtin applied
to the raw argument nodes 1 and 2 (against any environment, the empty
root here) evaluates them and yields the integer 3. -/
theorem parse_and_add_example :
    parseProgram "add 1 2" = .ok (.apply (.sym "add") [.int 1, .int 2]) ∧
    builtin_add [.int 1, .int 2] (.root []) = .ok (.int 3) :=
  ⟨rfl, rfl⟩

/-- C1: the round-trip claim fails on the code.  From the buffer with
lines a and b and the cursor at row 1 column 1, deleteCharBackward
records its Delete change at the wrong position (computed from the
post-deletion cursor), so the following undo rebuilds lines ab and empty
instead of restoring lines a and b with the cursor at row 1 column 1;
deleteTextInternal additionally pushes a spurious Move change through the
public setCursorPosition. -/
theorem deleteCharBackward_undo_not_roundtrip :
    (let b0 : Buffer := { lines := [['a'], ['b']], cursorRow := 1, cursorCol := 1 };
     b0.deleteCharBackward.undo.lines = [['a', 'b'], []] ∧
     b0.deleteCharBackward.undo.cursorRow = 0 ∧
     b0.deleteCharBackward.undo.cursorCol = 2 ∧
     b0.deleteCharBackward.undoStack =
       [.delete 0 1 ['b'], .move 1 1 1 0] ∧
     ¬ (b0.deleteCharBackward.undo.lines = b0.lines ∧
        b0.deleteCharBackward.undo.cursorRow = b0.cursorRow ∧
        b0.deleteCharBackward.undo.cursorCol = b0.cursorCol)) := by
  decide

/-! Environment lemmas for the scope-chain claim. -/

theorem scopeFind_scopeInsert_self {V : Type} (n : String) (v : V) (s : List (String × V)) :
    scopeFind n (scopeInsert n v s) = some v := by
  induction s with
  | nil => simp [scopeInsert, scopeFind]
  | cons hd tl ih =>
    obtain ⟨k, w⟩ := hd
    by_cases h : k = n <;> simp [scopeInsert, scopeFind, h, ih]

theorem scopeFind_scopeInsert_ne {V : Type} (m n : String) (v : V) (s : List (String × V))
    (h : m ≠ n) : scopeFind m (scopeInsert n v s) = scopeFind m s := by
  have hnm : ¬ n = m := fun hh => h hh.symm
  induction s with
  | nil => simp [scopeInsert, scopeFind, hnm]
  | cons hd tl ih =>
    obtain ⟨k, w⟩ := hd
    by_cases hk : k = n
    · subst hk
      simp [scopeInsert, scopeFind, hnm]
    · simp [scopeInsert, scopeFind, hk, ih]

theorem scopeFind_scopeUpdate_self {V : Type} (n : String) (v : V) (s : List (String × V))
    (h : (scopeFind n s).isSome) : scopeFind n (scopeUpdate n v s) = some v := by
  induction s with
  | nil => simp [scopeFind] at h
  | cons hd tl ih =>
    obtain ⟨k, w⟩ := hd
    by_cases hk : k = n
    · simp [scopeUpdate, scopeFind, hk]
    · simp [scopeUpdate, scopeFind, hk] at h ⊢
      exact ih h

theorem lookup_eq_findSome {V : Type} (e : EnvT V) (n : String) :
    e.lookup n = e.chainScopes.findSome? (fun s => scopeFind n s) := by
  induction e with
  | root s => cases h : scopeFind n s <;> simp [EnvT.lookup, EnvT.chainScopes, h]
  | child s p ih => cases h : scopeFind n s <;> simp [EnvT.lookup, EnvT.chainScopes, h, ih]

theorem lookup_none_iff {V : Type} (e : EnvT V) (n : String) :
    e.lookup n = none ↔ ∀ s ∈ e.chainScopes, scopeFind n s = none := by
  rw [lookup_eq_findSome]
  exact List.findSome?_eq_none_iff

theorem assign_fst {V : Type} (e : EnvT V) (n : String) (v : V) :
    (e.assign n v).1 = (e.lookup n).isSome := by
  induction e with
  | root s => cases h : scopeFind n s <;> simp [EnvT.assign, EnvT.lookup, h]
  | child s p ih => cases h : scopeFind n s <;> simp [EnvT.assign, EnvT.lookup, h, ih]

theorem assign_snd_of_none {V : Type} (e : EnvT V) (n : String) (v : V)
    (h : e.lookup n = none) : (e.assign n v).2 = e := by
  induction e with
  | root s =>
    cases hs : scopeFind n s with
    | none => simp [EnvT.assign, hs]
    | some w => simp [EnvT.lookup, hs] at h
  | child s p ih =>
    cases hs : scopeFind n s with
    | none =>
      have hp : p.lookup n = none := by simpa [EnvT.lookup, hs] using h
      simp [EnvT.assign, hs, ih hp]
    | some w => simp [EnvT.lookup, hs] at h

theorem assign_lookup_of_found {V : Type} (e : EnvT V) (n : String) (v : V)
    (h : (e.assign n v).1 = true) : (e.assign n v).2.lookup n = some v := by
  induction e with
  | root s =>
    cases hs : scopeFind n s with
    | none => simp [EnvT.assign, hs] at h
    | some w =>
      have hupd := scopeFind_scopeUpdate_self n v s (by simp [hs])
      simp [EnvT.assign, hs, EnvT.lookup, hupd]
  | child s p ih =>
    cases hs : scopeFind n s with
    | none =>
      have hp := ih (by simpa [EnvT.assign, hs] using h)
      simp [EnvT.assign, hs, EnvT.lookup, hp]
    | some w =>
      have hupd := scopeFind_scopeUpdate_self n v s (by simp [hs])
      simp [EnvT.assign, hs, EnvT.lookup, hupd]

theorem assign_chain_of_found {V : Type} (e : EnvT V) (n : String) (v : V)
    (h : (e.assign n v).1 = true) :
    ∃ k, k < e.chainScopes.length ∧
      (∀ j, j < k → scopeFind n (e.chainScopes.getD j []) = none) ∧
      (scopeFind n (e.chainScopes.getD k [])).isSome ∧
      (e.assign n v).2.chainScopes =
        e.chainScopes.set k (scopeUpdate n v (e.chainScopes.getD k [])) := by
  induction e with
  | root s =>
    cases hs : scopeFind n s with
    | none => simp [EnvT.assign, hs] at h
    | some w =>
      refine ⟨0, by simp [EnvT.chainScopes], by omega, by simp [EnvT.chainScopes, hs], ?_⟩
      simp [EnvT.assign, hs, EnvT.chainScopes]
  | child s p ih =>
    cases hs : scopeFind n s with
    | none =>
      obtain ⟨k, hk, hj, hks, hchain⟩ := ih (by simpa [EnvT.assign, hs] using h)
      refine ⟨k + 1, by simp [EnvT.chainScopes]; omega, ?_, ?_, ?_⟩
      · intro j hjk
        cases j with
        | zero => simpa [EnvT.chainScopes] using hs
        | succ j => simpa [EnvT.chainScopes] using hj j (by omega)
      · simpa [EnvT.chainScopes] using hks
      · have ha : (EnvT.child s p).assign n v = ((p.assign n v).1, .child s (p.assign n v).2) := by
          simp [EnvT.assign, hs]
        rw [ha]
        show s :: (p.assign n v).2.chainScopes = _
        rw [hchain]
        rfl
    | some w =>
      refine ⟨0, by simp [EnvT.chainScopes], by omega, by simp [EnvT.chainScopes, hs], ?_⟩
      simp [EnvT.assign, hs, EnvT.chainScopes]

/-- C7: define binds only in the scope it is called on (same parent, same
ancestor scope maps; the name maps to the new value there, other names
are untouched); lookup resolves through the chain nearest-first and is
nothing exactly when no scope in the chain holds the name; assign fails
without changing anything exactly when no scope holds the name, and
otherwise updates the binding in the nearest scope holding it, leaving
every other scope unchanged. -/
theorem environment_spec {V : Type} (e : EnvT V) (n : String) (v : V) :
    ((e.define n v).parentEnv = e.parentEnv ∧
     (e.define n v).chainScopes.tail = e.chainScopes.tail ∧
     scopeFind n (e.define n v).scope = some v ∧
     (∀ m, m ≠ n → scopeFind m (e.define n v).scope = scopeFind m e.scope)) ∧
    (e.lookup n = e.chainScopes.findSome? (fun s => scopeFind n s) ∧
     (e.lookup n = none ↔ ∀ s ∈ e.chainScopes, scopeFind n s = none)) ∧
    (((e.assign n v).1 = false ↔ e.lookup n = none) ∧
     ((e.assign n v).1 = false → (e.assign n v).2 = e) ∧
     ((e.assign n v).1 = true →
       (e.assign n v).2.lookup n = some v ∧
       ∃ k, k < e.chainScopes.length ∧
         (∀ j, j < k → scopeFind n (e.chainScopes.getD j []) = none) ∧
         (scopeFind n (e.chainScopes.getD k [])).isSome ∧
         (e.assign n v).2.chainScopes =
           e.chainScopes.set k (scopeUpdate n v (e.chainScopes.getD k [])))) := by
  refine ⟨⟨?_, ?_, ?_, ?_⟩, ⟨lookup_eq_findSome e n, lookup_none_iff e n⟩, ⟨?_, ?_, ?_⟩⟩
  · cases e <;> rfl
  · cases e <;> rfl
  · cases e <;> exact scopeFind_scopeInsert_self n v _
  · intro m hm
    cases e <;> exact scopeFind_scopeInsert_ne m n v _ hm
  · rw [assign_fst]
    cases e.lookup n <;> simp
  · intro h
    apply assign_snd_of_none
    rw [assign_fst] at h
    cases hl : e.lookup n
    · rfl
    · rw [hl] at h; cases h
  · intro h
    exact ⟨assign_lookup_of_found e n v h, assign_chain_of_found e n v h⟩

/-- Witness for the C7 theorem on a concrete two-scope chain. -/
theorem environment_spec_witness :
    ((EnvT.child [("x", 1)] (EnvT.root [("y", 2)]) : EnvT Nat).assign "y" 5).2.lookup "y"
      = some 5 ∧
    ((EnvT.root [("y", 2)] : EnvT Nat).assign "z" 5).2 = EnvT.root [("y", 2)] := by
  constructor
  · exact (((environment_spec (EnvT.child [("x", 1)] (EnvT.root [("y", 2)])) "y" 5).2.2.2.2)
      (by decide)).1
  · exact ((environment_spec (EnvT.root [("y", 2)]) "z" 5).2.2.2.1) (by decide)

/-! Projection lemmas for the buffer primitives. -/

@[simp] theorem fixCursor_lines (b : Buffer) : b.fixCursor.lines = b.lines := rfl
@[simp] theorem fixCursor_undoStack (b : Buffer) : b.fixCursor.undoStack = b.undoStack := rfl
@[simp] theorem fixCursor_redoStack (b : Buffer) : b.fixCursor.redoStack = b.redoStack := rfl
@[simp] theorem fixCursor_selectionStart (b : Buffer) :
    b.fixCursor.selectionStart = b.selectionStart := rfl
@[simp] theorem fixCursor_isEdited (b : Buffer) : b.fixCursor.isEdited = b.isEdited := rfl
@[simp] theorem fixCursor_filePath (b : Buffer) : b.fixCursor.filePath = b.filePath := rfl

@[simp] theorem pushUndo_lines (b : Buffer) (c : Change) : (b.pushUndo c).lines = b.lines := rfl
@[simp] theorem pushUndo_cursorRow (b : Buffer) (c : Change) :
    (b.pushUndo c).cursorRow = b.cursorRow := rfl
@[simp] theorem pushUndo_cursorCol (b : Buffer) (c : Change) :
    (b.pushUndo c).cursorCol = b.cursorCol := rfl
@[simp] theorem pushUndo_selectionStart (b : Buffer) (c : Change) :
    (b.pushUndo c).selectionStart = b.selectionStart := rfl
@[simp] theorem pushUndo_isEdited (b : Buffer) (c : Change) :
    (b.pushUndo c).isEdited = b.isEdited := rfl
@[simp] theorem pushUndo_filePath (b : Buffer) (c : Change) :
    (b.pushUndo c).filePath = b.filePath := rfl
@[simp] theorem pushUndo_undoStack (b : Buffer) (c : Change) :
    (b.pushUndo c).undoStack = c :: b.undoStack := rfl
@[simp] theorem pushUndo_redoStack (b : Buffer) (c : Change) :
    (b.pushUndo c).redoStack = [] := rfl

theorem fixCursor_valid (b : Buffer) (h : b.lines ≠ []) : b.fixCursor.Valid := by
  have hlen : 0 < b.lines.length := List.length_pos.mpr h
  unfold Buffer.fixCursor Buffer.Valid Buffer.getLineCount
  dsimp only
  refine ⟨h, by omega, by omega, ?_, ?_⟩
  · split <;> omega
  · split <;> omega

theorem pushUndo_valid (b : Buffer) (c : Change) (h : b.Valid) : (b.pushUndo c).Valid := h

@[simp] theorem setCursorPosition_lines (b : Buffer) (r c : Int) :
    (b.setCursorPosition r c).lines = b.lines := by
  unfold Buffer.setCursorPosition
  dsimp only
  split <;> rfl

@[simp] theorem setCursorPosition_selectionStart (b : Buffer) (r c : Int) :
    (b.setCursorPosition r c).selectionStart = b.selectionStart := by
  unfold Buffer.setCursorPosition
  dsimp only
  split <;> rfl

@[simp] theorem setCursorPosition_isEdited (b : Buffer) (r c : Int) :
    (b.setCursorPosition r c).isEdited = b.isEdited := by
  unfold Buffer.setCursorPosition
  dsimp only
  split <;> rfl

@[simp] theorem setCursorPosition_filePath (b : Buffer) (r c : Int) :
    (b.setCursorPosition r c).filePath = b.filePath := by
  unfold Buffer.setCursorPosition
  dsimp only
  split <;> rfl

theorem setCursorPosition_valid (b : Buffer) (r c : Int) (h : b.lines ≠ []) :
    (b.setCursorPosition r c).Valid := by
  unfold Buffer.setCursorPosition
  dsimp only
  split
  · exact pushUndo_valid _ _ (fixCursor_valid _ h)
  · exact fixCursor_valid _ h

@[simp] theorem insertPart_undoStack (b : Buffer) (p : Line) :
    (b.insertPart p).undoStack = b.undoStack := by
  unfold Buffer.insertPart
  dsimp only
  split
  · rfl
  · split <;> rfl

@[simp] theorem insertPart_redoStack (b : Buffer) (p : Line) :
    (b.insertPart p).redoStack = b.redoStack := by
  unfold Buffer.insertPart
  dsimp only
  split
  · rfl
  · split <;> rfl

@[simp] theorem insertPart_selectionStart (b : Buffer) (p : Line) :
    (b.insertPart p).selectionStart = b.selectionStart := by
  unfold Buffer.insertPart
  dsimp only
  split
  · rfl
  · split <;> rfl

@[simp] theorem insertPart_isEdited (b : Buffer) (p : Line) :
    (b.insertPart p).isEdited = b.isEdited := by
  unfold Buffer.insertPart
  dsimp only
  split
  · rfl
  · split <;> rfl

@[simp] theorem insertPart_filePath (b : Buffer) (p : Line) :
    (b.insertPart p).filePath = b.filePath := by
  unfold Buffer.insertPart
  dsimp only
  split
  · rfl
  · split <;> rfl

theorem insertPart_lines_length (b : Buffer) (p : Line) :
    (b.insertPart p).lines.length = b.lines.length := by
  unfold Buffer.insertPart
  dsimp only
  split
  · rfl
  · split
    · simp
    · rfl

theorem insertPart_lines_ne (b : Buffer) (p : Line) (h : b.lines ≠ []) :
    (b.insertPart p).lines ≠ [] := by
  have := insertPart_lines_length b p
  intro hc
  rw [hc] at this
  exact h (List.length_eq_zero.mp this.symm)

@[simp] theorem splitAtCursor_undoStack (b : Buffer) :
    b.splitAtCursor.undoStack = b.undoStack := by
  unfold Buffer.splitAtCursor
  dsimp only
  split <;> rfl

@[simp] theorem splitAtCursor_redoStack (b : Buffer) :
    b.splitAtCursor.redoStack = b.redoStack := by
  unfold Buffer.splitAtCursor
  dsimp only
  split <;> rfl

@[simp] theorem splitAtCursor_selectionStart (b : Buffer) :
    b.splitAtCursor.selectionStart = b.selectionStart := by
  unfold Buffer.splitAtCursor
  dsimp only
  split <;> rfl

@[simp] theorem splitAtCursor_isEdited (b : Buffer) :
    b.splitAtCursor.isEdited = b.isEdited := by
  unfold Buffer.splitAtCursor
  dsimp only
  split <;> rfl

@[simp] theorem splitAtCursor_filePath (b : Buffer) :
    b.splitAtCursor.filePath = b.filePath := by
  unfold Buffer.splitAtCursor
  dsimp only
  split <;> rfl

theorem splitAtCursor_lines_ne (b : Buffer) (h : b.lines ≠ []) :
    b.splitAtCursor.lines ≠ [] := by
  unfold Buffer.splitAtCursor
  dsimp only
  split
  · intro hc
    have h1 := congrArg List.length hc
    have h2 := List.length_le_length_insertIdx
      (b.lines.set b.cursorRow.toNat ((b.curLine).take (min b.cursorCol ((b.curLine).length : Int)).toNat))
      ((b.curLine).drop (min b.cursorCol ((b.curLine).length : Int)).toNat)
      (b.cursorRow.toNat + 1)
    simp at h1
    rw [h1] at h2
    simp at h2
    exact h h2
  · exact h

@[simp] theorem eraseCharAtCursor_undoStack (b : Buffer) :
    b.eraseCharAtCursor.undoStack = b.undoStack := rfl
@[simp] theorem eraseCharAtCursor_redoStack (b : Buffer) :
    b.eraseCharAtCursor.redoStack = b.redoStack := rfl
@[simp] theorem eraseCharAtCursor_selectionStart (b : Buffer) :
    b.eraseCharAtCursor.selectionStart = b.selectionStart := rfl
@[simp] theorem eraseCharAtCursor_isEdited (b : Buffer) :
    b.eraseCharAtCursor.isEdited = b.isEdited := rfl
@[simp] theorem eraseCharAtCursor_filePath (b : Buffer) :
    b.eraseCharAtCursor.filePath = b.filePath := rfl
@[simp] theorem eraseCharAtCursor_lines_length (b : Buffer) :
    b.eraseCharAtCursor.lines.length = b.lines.length := by
  unfold Buffer.eraseCharAtCursor
  simp

@[simp] theorem joinWithNextLine_undoStack (b : Buffer) :
    b.joinWithNextLine.undoStack = b.undoStack := rfl
@[simp] theorem joinWithNextLine_redoStack (b : Buffer) :
    b.joinWithNextLine.redoStack = b.redoStack := rfl
@[simp] theorem joinWithNextLine_selectionStart (b : Buffer) :
    b.joinWithNextLine.selectionStart = b.selectionStart := rfl
@[simp] theorem joinWithNextLine_isEdited (b : Buffer) :
    b.joinWithNextLine.isEdited = b.isEdited := rfl
@[simp] theorem joinWithNextLine_filePath (b : Buffer) :
    b.joinWithNextLine.filePath = b.filePath := rfl

theorem eraseCharAtCursor_lines_ne (b : Buffer) (h : b.lines ≠ []) :
    b.eraseCharAtCursor.lines ≠ [] := by
  intro hc
  have h1 := congrArg List.length hc
  rw [eraseCharAtCursor_lines_length] at h1
  exact h (List.length_eq_zero.mp h1)

theorem joinWithNextLine_lines_ne (b : Buffer) (h : b.lines ≠ []) :
    b.joinWithNextLine.lines ≠ [] := by
  have hp : 0 < b.lines.length := List.length_pos.mpr h
  unfold Buffer.joinWithNextLine
  intro hc
  have h1 := congrArg List.length hc
  simp [List.length_eraseIdx] at h1
  split at h1 <;> omega

theorem deleteLoop_stacks (n : Nat) (b : Buffer) :
    (b.deleteLoop n).undoStack = b.undoStack ∧ (b.deleteLoop n).redoStack = b.redoStack ∧
    (b.deleteLoop n).selectionStart = b.selectionStart ∧
    (b.deleteLoop n).isEdited = b.isEdited ∧ (b.deleteLoop n).filePath = b.filePath := by
  induction n generalizing b with
  | zero => exact ⟨rfl, rfl, rfl, rfl, rfl⟩
  | succ n ih =>
    unfold Buffer.deleteLoop
    split
    · exact ⟨rfl, rfl, rfl, rfl, rfl⟩
    · dsimp only
      refine ⟨?_, ?_, ?_, ?_, ?_⟩
      · rw [(ih _).1, fixCursor_undoStack]
        split
        · rfl
        · split <;> rfl
      · rw [(ih _).2.1, fixCursor_redoStack]
        split
        · rfl
        · split <;> rfl
      · rw [(ih _).2.2.1, fixCursor_selectionStart]
        split
        · rfl
        · split <;> rfl
      · rw [(ih _).2.2.2.1, fixCursor_isEdited]
        split
        · rfl
        · split <;> rfl
      · rw [(ih _).2.2.2.2, fixCursor_filePath]
        split
        · rfl
        · split <;> rfl

theorem deleteLoop_valid (n : Nat) (b : Buffer) (h : b.Valid) : (b.deleteLoop n).Valid := by
  induction n generalizing b with
  | zero => exact h
  | succ n ih =>
    unfold Buffer.deleteLoop
    split
    · exact h
    · dsimp only
      apply ih
      apply fixCursor_valid
      split
      · exact eraseCharAtCursor_lines_ne b h.1
      · split
        · exact joinWithNextLine_lines_ne b h.1
        · exact h.1

theorem deleteTextInternal_valid (b : Buffer) (r c : Int) (len : Nat) (h : b.Valid) :
    (b.deleteTextInternal r c len).Valid := by
  unfold Buffer.deleteTextInternal
  split
  · exact h
  · dsimp only
    apply fixCursor_valid
    show (Buffer.deleteLoop (b.setCursorPosition r c) len).lines ≠ []
    exact (deleteLoop_valid _ _ (setCursorPosition_valid b r c h.1)).1

theorem insertSegs_stacks (segs : List Line) (b : Buffer) :
    (b.insertSegs segs).undoStack = b.undoStack ∧
    (b.insertSegs segs).redoStack = b.redoStack ∧
    (b.insertSegs segs).selectionStart = b.selectionStart ∧
    (b.insertSegs segs).isEdited = b.isEdited ∧
    (b.insertSegs segs).filePath = b.filePath := by
  induction segs generalizing b with
  | nil => exact ⟨rfl, rfl, rfl, rfl, rfl⟩
  | cons p t ih =>
    cases t with
    | nil => simp [Buffer.insertSegs]
    | cons q t2 =>
      have hunf : b.insertSegs (p :: q :: t2) =
          Buffer.insertSegs ((b.insertPart p).splitAtCursor) (q :: t2) := rfl
      have h1 := ih ((b.insertPart p).splitAtCursor)
      rw [hunf, h1.1, h1.2.1, h1.2.2.1, h1.2.2.2.1, h1.2.2.2.2]
      simp

theorem insertSegs_lines_ne (segs : List Line) (b : Buffer) (h : b.lines ≠ []) :
    (b.insertSegs segs).lines ≠ [] := by
  induction segs generalizing b with
  | nil => exact h
  | cons p t ih =>
    cases t with
    | nil => exact insertPart_lines_ne b p h
    | cons q t2 =>
      show (Buffer.insertSegs ((b.insertPart p).splitAtCursor) (q :: t2)).lines ≠ []
      exact ih _ (splitAtCursor_lines_ne _ (insertPart_lines_ne b p h))

theorem insertTextInternal_stacks (b : Buffer) (t : Line) :
    (b.insertTextInternal t).undoStack = b.undoStack ∧
    (b.insertTextInternal t).redoStack = b.redoStack ∧
    (b.insertTextInternal t).selectionStart = b.selectionStart ∧
    (b.insertTextInternal t).isEdited = b.isEdited ∧
    (b.insertTextInternal t).filePath = b.filePath := by
  unfold Buffer.insertTextInternal
  split
  · exact ⟨rfl, rfl, rfl, rfl, rfl⟩
  · have h1 := insertSegs_stacks (splitOnNl t) b
    simp only [fixCursor_undoStack, fixCursor_redoStack, fixCursor_selectionStart,
      fixCursor_isEdited, fixCursor_filePath]
    exact h1

theorem insertTextInternal_valid (b : Buffer) (t : Line) (h : b.Valid) :
    (b.insertTextInternal t).Valid := by
  unfold Buffer.insertTextInternal
  split
  · exact h
  · exact fixCursor_valid _ (insertSegs_lines_ne _ _ h.1)

@[simp] theorem selectStart_lines (b : Buffer) : b.selectStart.lines = b.lines := by
  unfold Buffer.selectStart
  split <;> rfl

@[simp] theorem selectStart_cursorRow (b : Buffer) : b.selectStart.cursorRow = b.cursorRow := by
  unfold Buffer.selectStart
  split <;> rfl

@[simp] theorem selectStart_cursorCol (b : Buffer) : b.selectStart.cursorCol = b.cursorCol := by
  unfold Buffer.selectStart
  split <;> rfl

@[simp] theorem unselect_lines (b : Buffer) : b.unselect.lines = b.lines := by
  unfold Buffer.unselect
  split <;> rfl

@[simp] theorem unselect_cursorRow (b : Buffer) : b.unselect.cursorRow = b.cursorRow := by
  unfold Buffer.unselect
  split <;> rfl

@[simp] theorem unselect_cursorCol (b : Buffer) : b.unselect.cursorCol = b.cursorCol := by
  unfold Buffer.unselect
  split <;> rfl

theorem selectStart_valid (b : Buffer) (h : b.Valid) : b.selectStart.Valid := by
  unfold Buffer.selectStart
  split
  · exact h
  · exact pushUndo_valid _ _ h

theorem unselect_valid (b : Buffer) (h : b.Valid) : b.unselect.Valid := by
  unfold Buffer.unselect
  split
  · exact h
  · exact pushUndo_valid _ _ h

theorem deleteSelection_valid (b : Buffer) (h : b.Valid) : b.deleteSelection.Valid := by
  unfold Buffer.deleteSelection
  split
  · exact h
  · dsimp only
    split
    · exact unselect_valid _ h
    · apply pushUndo_valid
      apply unselect_valid
      exact deleteTextInternal_valid _ _ _ _ h

theorem insertChar_valid (b : Buffer) (c : Char) (h : b.Valid) : (b.insertChar c).Valid := by
  unfold Buffer.insertChar
  dsimp only
  apply pushUndo_valid
  show Buffer.Valid (Buffer.insertTextInternal _ _)
  apply insertTextInternal_valid
  split
  · exact deleteSelection_valid _ h
  · exact h

theorem insertNewline_valid (b : Buffer) (h : b.Valid) : b.insertNewline.Valid := by
  unfold Buffer.insertNewline
  dsimp only
  apply pushUndo_valid
  show Buffer.Valid (Buffer.insertTextInternal _ _)
  apply insertTextInternal_valid
  split
  · exact deleteSelection_valid _ h
  · exact h

theorem insertString_valid (b : Buffer) (t : Line) (h : b.Valid) : (b.insertString t).Valid := by
  unfold Buffer.insertString
  split
  · exact h
  · dsimp only
    apply pushUndo_valid
    show Buffer.Valid (Buffer.insertTextInternal _ _)
    apply insertTextInternal_valid
    split
    · exact deleteSelection_valid _ h
    · exact h

theorem deleteCharForward_valid (b : Buffer) (h : b.Valid) : b.deleteCharForward.Valid := by
  unfold Buffer.deleteCharForward
  split
  · exact deleteSelection_valid _ h
  · dsimp only
    split
    · apply fixCursor_valid
      rw [setCursorPosition_lines]
      exact (deleteTextInternal_valid _ _ _ _ h).1
    · split
      · apply fixCursor_valid
        rw [setCursorPosition_lines]
        exact (deleteTextInternal_valid _ _ _ _ h).1
      · exact h

theorem deleteCharBackward_valid (b : Buffer) (h : b.Valid) : b.deleteCharBackward.Valid := by
  unfold Buffer.deleteCharBackward
  split
  · exact deleteSelection_valid _ h
  · dsimp only
    split
    · exact pushUndo_valid _ _ (deleteTextInternal_valid _ _ _ _ h)
    · split
      · exact pushUndo_valid _ _ (deleteTextInternal_valid _ _ _ _ h)
      · exact h

theorem setCursorPosition_op_valid (b : Buffer) (r c : Int) (h : b.Valid) :
    (b.setCursorPosition r c).Valid :=
  setCursorPosition_valid b r c h.1

theorem ite_pushUndo_valid (cond : Prop) [Decidable cond] (b2 : Buffer) (c : Change)
    (h : b2.Valid) : (if cond then b2.pushUndo c else b2).Valid := by
  split
  · exact pushUndo_valid _ _ h
  · exact h

theorem moveCursor_valid (b : Buffer) (dir : Direction) (selecting : Bool) (h : b.Valid) :
    (b.moveCursor dir selecting).Valid := by
  unfold Buffer.moveCursor
  dsimp only
  apply ite_pushUndo_valid
  apply fixCursor_valid
  generalize hb0 : (if selecting = true ∧ b.selectionStart.isNone = true then b.selectStart
      else if ¬selecting = true ∧ b.selectionStart.isSome = true then b.unselect
      else b) = b0
  have h0 : b0.lines = b.lines := by
    rw [← hb0]
    split
    · exact selectStart_lines b
    · split
      · exact unselect_lines b
      · rfl
  cases dir <;> dsimp only <;> (repeat' split) <;> (simp only [h0]; exact h.1)

theorem undoCh_valid (c : Change) (b : Buffer) (h : b.Valid) : (c.undoCh b).Valid := by
  cases c with
  | insert row col text =>
    exact setCursorPosition_valid _ _ _ (deleteTextInternal_valid b _ _ _ h).1
  | delete row col text =>
    exact insertTextInternal_valid _ _ (setCursorPosition_valid b _ _ h.1)
  | move fromRow fromCol toRow toCol => exact setCursorPosition_valid b _ _ h.1
  | select oldSel newSel => cases oldSel <;> exact h
  | unselect oldSel => exact h

theorem applyCh_valid (c : Change) (b : Buffer) (h : b.Valid) : (c.applyCh b).Valid := by
  cases c with
  | insert row col text =>
    exact insertTextInternal_valid _ _ (setCursorPosition_valid b _ _ h.1)
  | delete row col text =>
    exact setCursorPosition_valid _ _ _ (deleteTextInternal_valid b _ _ _ h).1
  | move fromRow fromCol toRow toCol => exact setCursorPosition_valid b _ _ h.1
  | select oldSel newSel => exact h
  | unselect oldSel => exact h

theorem undo_valid (b : Buffer) (h : b.Valid) : b.undo.Valid := by
  unfold Buffer.undo
  split
  · exact h
  next c rest _ =>
    dsimp only
    apply fixCursor_valid
    exact (undoCh_valid c { b with undoStack := rest } h).1

theorem redo_valid (b : Buffer) (h : b.Valid) : b.redo.Valid := by
  unfold Buffer.redo
  split
  · exact h
  next c rest _ =>
    dsimp only
    apply fixCursor_valid
    exact (applyCh_valid c { b with redoStack := rest } h).1

theorem run_valid (op : BufOp) (b : Buffer) (h : b.Valid) : (op.run b).Valid := by
  cases op with
  | insertChar c => exact insertChar_valid b c h
  | insertNewline => exact insertNewline_valid b h
  | insertString t => exact insertString_valid b t h
  | deleteCharForward => exact deleteCharForward_valid b h
  | deleteCharBackward => exact deleteCharBackward_valid b h
  | deleteSelection => exact deleteSelection_valid b h
  | setCursorPosition r c => exact setCursorPosition_op_valid b r c h
  | moveCursor d s => exact moveCursor_valid b d s h
  | selectStart => exact selectStart_valid b h
  | unselect => exact unselect_valid b h
  | undo => exact undo_valid b h
  | redo => exact redo_valid b h

/-- C2: starting from any valid buffer, every sequence of public buffer
operations keeps the cursor invariant: the line array is never empty, the
row indexes a line, and the column lies between zero and the length of
the cursor line inclusive. -/
theorem ops_preserve_cursor_invariant (ops : List BufOp) (b : Buffer) (h : b.Valid) :
    (runOps ops b).Valid := by
  induction ops generalizing b with
  | nil => exact h
  | cons op rest ih => exact ih _ (run_valid op b h)

/-- Witness for the C2 theorem: a concrete operation sequence from the
one-line empty buffer stays valid. -/
theorem ops_preserve_cursor_invariant_witness :
    (runOps [.insertChar 'a', .insertNewline, .deleteCharBackward, .moveCursor .left true,
             .insertString ['x', '\n', 'y'], .undo, .redo] { }).Valid := by
  exact ops_preserve_cursor_invariant _ { } (by decide)

/-! Stack lemmas for the redo-clearing claim. -/

/-- Either an operation step left both stacks untouched, or some change
was pushed through pushUndo and the redo stack is empty. -/
def StackInv (b b' : Buffer) : Prop :=
  (b'.undoStack = b.undoStack ∧ b'.redoStack = b.redoStack) ∨ b'.redoStack = []

theorem stackInv_refl (b : Buffer) : StackInv b b := Or.inl ⟨rfl, rfl⟩

theorem stackInv_trans {a b c : Buffer} (h1 : StackInv a b) (h2 : StackInv b c) :
    StackInv a c := by
  rcases h1 with ⟨h1u, h1r⟩ | h1e
  · rcases h2 with ⟨h2u, h2r⟩ | h2e
    · exact Or.inl ⟨h2u.trans h1u, h2r.trans h1r⟩
    · exact Or.inr h2e
  · rcases h2 with ⟨h2u, h2r⟩ | h2e
    · exact Or.inr (h2r.trans h1e)
    · exact Or.inr h2e

theorem setCursorPosition_stackInv (b : Buffer) (r c : Int) :
    StackInv b (b.setCursorPosition r c) := by
  unfold Buffer.setCursorPosition
  dsimp only
  split
  · exact Or.inr rfl
  · exact Or.inl ⟨rfl, rfl⟩

theorem setCursorPosition_redo_of_empty (b : Buffer) (r c : Int) (h : b.redoStack = []) :
    (b.setCursorPosition r c).redoStack = [] := by
  unfold Buffer.setCursorPosition
  dsimp only
  split
  · rfl
  · exact h

theorem deleteTextInternal_stackInv (b : Buffer) (r c : Int) (n : Nat) :
    StackInv b (b.deleteTextInternal r c n) := by
  unfold Buffer.deleteTextInternal
  split
  · exact stackInv_refl b
  · dsimp only
    refine stackInv_trans (setCursorPosition_stackInv b r c) ?_
    exact Or.inl ⟨(deleteLoop_stacks n _).1, (deleteLoop_stacks n _).2.1⟩

theorem selectStart_stackInv (b : Buffer) : StackInv b b.selectStart := by
  unfold Buffer.selectStart
  split
  · exact stackInv_refl b
  · exact Or.inr rfl

theorem unselect_stackInv (b : Buffer) : StackInv b b.unselect := by
  unfold Buffer.unselect
  split
  · exact stackInv_refl b
  · exact Or.inr rfl

theorem deleteSelection_stackInv (b : Buffer) : StackInv b b.deleteSelection := by
  unfold Buffer.deleteSelection
  split
  · exact stackInv_refl b
  · dsimp only
    split
    · exact unselect_stackInv b
    · exact Or.inr rfl

theorem insertString_stackInv (b : Buffer) (t : Line) : StackInv b (b.insertString t) := by
  unfold Buffer.insertString
  split
  · exact stackInv_refl b
  · exact Or.inr rfl

theorem deleteCharForward_stackInv (b : Buffer) : StackInv b b.deleteCharForward := by
  unfold Buffer.deleteCharForward
  split
  · exact deleteSelection_stackInv b
  · dsimp only
    split
    · exact Or.inr (by rw [fixCursor_redoStack]; exact setCursorPosition_redo_of_empty _ _ _ rfl)
    · split
      · exact Or.inr (by rw [fixCursor_redoStack]; exact setCursorPosition_redo_of_empty _ _ _ rfl)
      · exact stackInv_refl b

theorem deleteCharBackward_stackInv (b : Buffer) : StackInv b b.deleteCharBackward := by
  unfold Buffer.deleteCharBackward
  split
  · exact deleteSelection_stackInv b
  · dsimp only
    split
    · exact Or.inr rfl
    · split
      · exact Or.inr rfl
      · exact stackInv_refl b

theorem moveCursor_stackInv (b : Buffer) (dir : Direction) (selecting : Bool) :
    StackInv b (b.moveCursor dir selecting) := by
  unfold Buffer.moveCursor
  dsimp only
  have h0 : StackInv b (if selecting = true ∧ b.selectionStart.isNone = true then b.selectStart
      else if ¬selecting = true ∧ b.selectionStart.isSome = true then b.unselect else b) := by
    split
    · exact selectStart_stackInv b
    · split
      · exact unselect_stackInv b
      · exact stackInv_refl b
  generalize hb0 : (if selecting = true ∧ b.selectionStart.isNone = true then b.selectStart
      else if ¬selecting = true ∧ b.selectionStart.isSome = true then b.unselect else b) = b0
  rw [hb0] at h0
  cases dir <;> (repeat' split) <;> first | exact Or.inr rfl | exact h0

theorem run_stackInv (op : BufOp) (b : Buffer) (hop : op.isUndoOrRedo = false) :
    StackInv b (op.run b) := by
  cases op with
  | insertChar c => exact Or.inr rfl
  | insertNewline => exact Or.inr rfl
  | insertString t => exact insertString_stackInv b t
  | deleteCharForward => exact deleteCharForward_stackInv b
  | deleteCharBackward => exact deleteCharBackward_stackInv b
  | deleteSelection => exact deleteSelection_stackInv b
  | setCursorPosition r c => exact setCursorPosition_stackInv b r c
  | moveCursor d s => exact moveCursor_stackInv b d s
  | selectStart => exact selectStart_stackInv b
  | unselect => exact unselect_stackInv b
  | undo => cases hop
  | redo => cases hop

/-- C4: pushing any change clears the redo stack, and after any public
non-undo-redo operation that pushed a new change (the undo stack
changed), the redo stack is empty, so an immediately following redo is a
no-op. -/
theorem fresh_edit_clears_redo (op : BufOp) (b : Buffer)
    (hop : op.isUndoOrRedo = false)
    (hpush : (op.run b).undoStack ≠ b.undoStack) :
    (op.run b).redoStack = [] ∧ (op.run b).redo = op.run b ∧
    (∀ (b2 : Buffer) (c : Change), (b2.pushUndo c).redoStack = []) := by
  have hred : (op.run b).redoStack = [] := by
    rcases run_stackInv op b hop with ⟨h1, _⟩ | h
    · exact absurd h1 hpush
    · exact h
  refine ⟨hred, ?_, fun b2 c => rfl⟩
  unfold Buffer.redo
  rw [hred]

/-- Witness for the C4 theorem: a fresh insertion on the empty buffer
pushes a change and leaves the redo stack empty, so redo is a no-op. -/
theorem fresh_edit_clears_redo_witness :
    ((BufOp.insertChar 'x').run { }).redoStack = [] ∧
    ((BufOp.insertChar 'x').run { }).redo = (BufOp.insertChar 'x').run { } := by
  have h := fresh_edit_clears_redo (.insertChar 'x') { } (by decide) (by decide)
  exact ⟨h.1, h.2.1⟩

/-!
The selection-span claim.  The reference meaning of the claim is defined
through the newline-joined document text and flat position offsets, and
the source getSelectedText is related to it.
-/

/-- The intermediate-lines loop of getSelectedText restated over Nat
indices; equal to selInterLines at nonnegative indices. -/
def selInterNat (lines : List Line) (i : Nat) : Nat → Line
  | 0 => []
  | n + 1 =>
    (if i < lines.length then '\n' :: lines.getD i [] else [])
      ++ selInterNat lines (i + 1) n

/-- selectedTextRange with the coordinates known nonnegative, over Nat;
equal to the source embedding at cast coordinates. -/
def selectedTextRangeNat (lines : List Line) (r1 c1 r2 c2 : Nat) : Line :=
  if r1 = r2 then
    if r1 < lines.length ∧ c1 < c2 then
      if min c1 (lines.getD r1 []).length < min c2 (lines.getD r1 []).length then
        ((lines.getD r1 []).take (min c2 (lines.getD r1 []).length)).drop
          (min c1 (lines.getD r1 []).length)
      else []
    else []
  else
    (if r1 < lines.length then
      (lines.getD r1 []).drop (min c1 (lines.getD r1 []).length)
     else [])
    ++ selInterNat lines (r1 + 1) (r2 - (r1 + 1))
    ++ (if r2 < lines.length ∧ 0 < c2 then
         '\n' :: (lines.getD r2 []).take (min c2 (lines.getD r2 []).length)
        else [])

/-- The flat offset of the position (r, c) in the newline-joined document
text: the lengths of the first r lines, one separator per line, plus c. -/
def posOffset (lines : List Line) : Nat → Nat → Nat
  | 0, c => c
  | r + 1, c =>
    match lines with
    | [] => c
    | l :: ls => l.length + 1 + posOffset ls r c

/-- The reference reading of the claim sentence: the text in the span
between two positions is the segment of the newline-joined document text
between the offsets of the two positions. -/
def specSpanText (lines : List Line) (p1 p2 : Nat × Nat) : Line :=
  ((serializeLines lines).take (posOffset lines p2.1 p2.2)).drop
    (posOffset lines p1.1 p1.2)

/-- The document text truncated at position (r, c): the normal form of a
take at a position offset. -/
def spanTo (lines : List Line) : Nat → Nat → Line
  | 0, c2 => (lines.getD 0 []).take c2
  | r + 1, c2 =>
    match lines with
    | [] => []
    | l :: ls => l ++ '\n' :: spanTo ls r c2

theorem selInterNat_cons (l : Line) (ls : List Line) (i : Nat) :
    ∀ n, selInterNat (l :: ls) (i + 1) n = selInterNat ls i n := by
  intro n
  induction n generalizing i with
  | zero => rfl
  | succ n ih =>
    show (if i + 1 < (l :: ls).length then '\n' :: (l :: ls).getD (i + 1) [] else [])
        ++ selInterNat (l :: ls) (i + 1 + 1) n
      = (if i < ls.length then '\n' :: ls.getD i [] else []) ++ selInterNat ls (i + 1) n
    rw [ih (i + 1)]
    congr 1
    simp [Nat.succ_lt_succ_iff]

theorem selInterLines_eq_nat (lines : List Line) :
    ∀ (n i : Nat), selInterLines lines (i : Int) n = selInterNat lines i n := by
  intro n
  induction n with
  | zero => intro i; rfl
  | succ n ih =>
    intro i
    show (if 0 ≤ (i : Int) ∧ (i : Int) < (lines.length : Int)
         then '\n' :: lineAt lines (i : Int) else [])
        ++ selInterLines lines ((i : Int) + 1) n = _
    have hcast : ((i : Int) + 1) = ((i + 1 : Nat) : Int) := by push_cast; ring
    rw [hcast, ih (i + 1)]
    show _ = (if i < lines.length then '\n' :: lines.getD i [] else [])
        ++ selInterNat lines (i + 1) n
    congr 1
    by_cases h : i < lines.length
    · rw [if_pos (by constructor <;> omega), if_pos h]
      unfold lineAt
      simp
    · rw [if_neg (by omega), if_neg h]

theorem take_posOffset_eq_spanTo (r2 : Nat) :
    ∀ (lines : List Line) (c2 : Nat), r2 < lines.length →
      c2 ≤ (lines.getD r2 []).length →
      (serializeLines lines).take (posOffset lines r2 c2) = spanTo lines r2 c2 := by
  induction r2 with
  | zero =>
    intro lines c2 hr hc
    cases lines with
    | nil => simp at hr
    | cons l ls =>
      cases ls with
      | nil => rfl
      | cons q ls2 =>
        show (l ++ '\n' :: serializeLines (q :: ls2)).take c2 = l.take c2
        exact List.take_append_of_le_length (by simpa using hc)
  | succ r ih =>
    intro lines c2 hr hc
    cases lines with
    | nil => simp at hr
    | cons l ls =>
      have hls : ls ≠ [] := by
        intro hn
        subst hn
        simp at hr
      have hser : serializeLines (l :: ls) = l ++ '\n' :: serializeLines ls := by
        cases ls with
        | nil => exact absurd rfl hls
        | cons q ls2 => rfl
      show (serializeLines (l :: ls)).take (l.length + 1 + posOffset ls r c2) = _
      rw [hser, Nat.add_assoc, List.take_append]
      rw [show (1 + posOffset ls r c2) = (posOffset ls r c2) + 1 from Nat.add_comm _ _]
      rw [List.take_succ_cons]
      show l ++ '\n' :: (serializeLines ls).take (posOffset ls r c2) = l ++ '\n' :: spanTo ls r c2
      rw [ih ls c2 (by simpa using hr) (by simpa using hc)]

theorem drop_posOffset_spanTo (r : Nat) :
    ∀ (lines : List Line) (c1 c2 : Nat), r < lines.length →
      (spanTo lines r c2).drop (posOffset lines r c1) =
        ((lines.getD r []).take c2).drop c1 := by
  induction r with
  | zero => intro lines c1 c2 _; cases lines <;> rfl
  | succ r ih =>
    intro lines c1 c2 hr
    cases lines with
    | nil => simp at hr
    | cons l ls =>
      show (l ++ '\n' :: spanTo ls r c2).drop (l.length + 1 + posOffset ls r c1) = _
      rw [Nat.add_assoc, List.drop_append]
      rw [show (1 + posOffset ls r c1) = (posOffset ls r c1) + 1 from Nat.add_comm _ _]
      rw [List.drop_succ_cons]
      show (spanTo ls r c2).drop (posOffset ls r c1) = _
      rw [ih ls c1 c2 (by simpa using hr)]
      simp

theorem selInter_spanTo (r : Nat) :
    ∀ (ls : List Line) (c2 : Nat), r < ls.length → c2 ≤ (ls.getD r []).length →
      selInterNat ls 0 r ++ (if 0 < c2 then '\n' :: (ls.getD r []).take c2 else []) =
        if 0 < c2 then '\n' :: spanTo ls r c2
        else ('\n' :: spanTo ls r c2).dropLast := by
  induction r with
  | zero =>
    intro ls c2 hr _
    cases ls with
    | nil => simp at hr
    | cons l1 ls2 =>
      by_cases hc2 : 0 < c2
      · simp [selInterNat, spanTo, hc2]
      · have hz : c2 = 0 := by omega
        subst hz
        simp [selInterNat, spanTo]
  | succ r ih =>
    intro ls c2 hr hc
    cases ls with
    | nil => simp at hr
    | cons l1 ls2 =>
      have hr2 : r < ls2.length := by simpa using hr
      have hc2' : c2 ≤ (ls2.getD r []).length := by simpa using hc
      have hstep : selInterNat (l1 :: ls2) 0 (r + 1)
          = '\n' :: (l1 ++ selInterNat ls2 0 r) := by
        show (if 0 < (l1 :: ls2).length then '\n' :: (l1 :: ls2).getD 0 [] else [])
            ++ selInterNat (l1 :: ls2) (0 + 1) r = _
        rw [selInterNat_cons l1 ls2 0 r, if_pos (by simp)]
        simp
      have hspan : spanTo (l1 :: ls2) (r + 1) c2 = l1 ++ '\n' :: spanTo ls2 r c2 := rfl
      have hgetD : (l1 :: ls2).getD (r + 1) [] = ls2.getD r [] := rfl
      by_cases hc2 : 0 < c2
      · have hih := ih ls2 c2 hr2 hc2'
        simp only [if_pos hc2] at hih ⊢
        rw [hstep, hspan, hgetD, List.cons_append, List.append_assoc, hih]
      · have hz : c2 = 0 := by omega
        subst hz
        have hih := ih ls2 0 hr2 hc2'
        simp only [if_neg hc2] at hih ⊢
        rw [List.append_nil] at hih ⊢
        rw [hstep, hspan]
        rw [List.dropLast_cons_of_ne_nil (by simp), List.dropLast_append_cons]
        rw [hih]

theorem selectedTextRangeNat_cons (l : Line) (ls : List Line) (r1 c1 r2 c2 : Nat) :
    selectedTextRangeNat (l :: ls) (r1 + 1) c1 (r2 + 1) c2 =
      selectedTextRangeNat ls r1 c1 r2 c2 := by
  unfold selectedTextRangeNat
  by_cases he : r1 = r2
  · subst he
    rw [if_pos rfl, if_pos rfl]
    simp [Nat.succ_lt_succ_iff]
  · rw [if_neg (by omega), if_neg he]
    simp [Nat.succ_lt_succ_iff, Nat.succ_sub_succ, selInterNat_cons]

theorem specSpanText_cons (l : Line) (ls : List Line) (r1 c1 r2 c2 : Nat) (hls : ls ≠ []) :
    specSpanText (l :: ls) (r1 + 1, c1) (r2 + 1, c2) = specSpanText ls (r1, c1) (r2, c2) := by
  unfold specSpanText
  have hser : serializeLines (l :: ls) = l ++ '\n' :: serializeLines ls := by
    cases ls with
    | nil => exact absurd rfl hls
    | cons q ls2 => rfl
  dsimp only
  show ((serializeLines (l :: ls)).take (l.length + 1 + posOffset ls r2 c2)).drop
      (l.length + 1 + posOffset ls r1 c1) = _
  rw [hser]
  have h1 : (l ++ '\n' :: serializeLines ls).take (l.length + 1 + posOffset ls r2 c2)
      = l ++ '\n' :: (serializeLines ls).take (posOffset ls r2 c2) := by
    rw [Nat.add_assoc, List.take_append, Nat.add_comm 1 _, List.take_succ_cons]
  rw [h1]
  have h2 : (l ++ '\n' :: (serializeLines ls).take (posOffset ls r2 c2)).drop
      (l.length + 1 + posOffset ls r1 c1)
      = ((serializeLines ls).take (posOffset ls r2 c2)).drop (posOffset ls r1 c1) := by
    rw [Nat.add_assoc, List.drop_append, Nat.add_comm 1 _, List.drop_succ_cons]
  rw [h2]

theorem spanNat_eq (r1 : Nat) :
    ∀ (lines : List Line) (c1 r2 c2 : Nat),
      r1 ≤ r2 → (r1 = r2 → c1 ≤ c2) → r2 < lines.length →
      c1 ≤ (lines.getD r1 []).length → c2 ≤ (lines.getD r2 []).length →
      selectedTextRangeNat lines r1 c1 r2 c2 =
        if r1 = r2 ∨ 0 < c2 then specSpanText lines (r1, c1) (r2, c2)
        else (specSpanText lines (r1, c1) (r2, c2)).dropLast := by
  induction r1 with
  | zero =>
    intro lines c1 r2 c2 hr hrc hr2 hc1 hc2
    cases r2 with
    | zero =>
      rw [if_pos (Or.inl rfl)]
      unfold specSpanText
      dsimp only
      rw [take_posOffset_eq_spanTo 0 lines c2 hr2 hc2]
      have hoff1 : posOffset lines 0 c1 = c1 := by cases lines <;> rfl
      rw [hoff1]
      have hspan0 : spanTo lines 0 c2 = (lines.getD 0 []).take c2 := by cases lines <;> rfl
      rw [hspan0]
      unfold selectedTextRangeNat
      rw [if_pos rfl]
      have hmin1 : min c1 (lines.getD 0 []).length = c1 := Nat.min_eq_left hc1
      have hmin2 : min c2 (lines.getD 0 []).length = c2 := Nat.min_eq_left hc2
      by_cases hcc : c1 < c2
      · rw [if_pos ⟨hr2, hcc⟩, hmin1, hmin2, if_pos hcc]
      · rw [if_neg (by tauto)]
        have hcteq : c2 ≤ c1 := by omega
        exact (List.drop_eq_nil_of_le (by simp; omega)).symm
    | succ r =>
      cases lines with
      | nil => simp at hr2
      | cons l ls =>
        have hr2' : r < ls.length := by simpa using hr2
        have hc2' : c2 ≤ (ls.getD r []).length := by simpa using hc2
        have hc1' : c1 ≤ l.length := by simpa using hc1
        unfold specSpanText
        dsimp only
        rw [take_posOffset_eq_spanTo (r + 1) (l :: ls) c2 hr2 hc2]
        have hoff1 : posOffset (l :: ls) 0 c1 = c1 := rfl
        rw [hoff1]
        have hspan : spanTo (l :: ls) (r + 1) c2 = l ++ '\n' :: spanTo ls r c2 := rfl
        rw [hspan, List.drop_append_of_le_length hc1']
        unfold selectedTextRangeNat
        rw [if_neg (by omega), if_pos (by simp : (0 : Nat) < (l :: ls).length)]
        have hone : (0 : Nat) + 1 = 1 := rfl
        have hsel : selInterNat (l :: ls) (0 + 1) ((r + 1) - (0 + 1)) = selInterNat ls 0 r := by
          rw [selInterNat_cons l ls 0]
          norm_num
        rw [hsel]
        have hlast : (if r + 1 < (l :: ls).length ∧ 0 < c2 then
            '\n' :: ((l :: ls).getD (r + 1) []).take (min c2 ((l :: ls).getD (r + 1) []).length)
            else [])
            = (if 0 < c2 then '\n' :: (ls.getD r []).take c2 else []) := by
          by_cases hcc : 0 < c2
          · rw [if_pos ⟨hr2, hcc⟩, if_pos hcc]
            show '\n' :: (ls.getD r []).take (min c2 (ls.getD r []).length) = _
            rw [Nat.min_eq_left hc2']
          · rw [if_neg (by tauto), if_neg hcc]
        rw [hlast]
        have hgd0 : ((l :: ls).getD 0 []) = l := rfl
        rw [hgd0, Nat.min_eq_left hc1']
        rw [List.append_assoc, selInter_spanTo r ls c2 hr2' hc2']
        have hcond : (0 = r + 1 ∨ 0 < c2) = (0 < c2) := by
          apply propext
          constructor
          · rintro (h | h)
            · omega
            · exact h
          · exact Or.inr
        simp only [hcond]
        by_cases hcc : 0 < c2
        · rw [if_pos hcc, if_pos hcc]
        · rw [if_neg hcc, if_neg hcc, List.dropLast_append_cons]
  | succ r1' ih =>
    intro lines c1 r2 c2 hr hrc hr2 hc1 hc2
    cases r2 with
    | zero => exact absurd hr (by omega)
    | succ r2' =>
      cases lines with
      | nil => simp at hr2
      | cons l ls =>
        have hls : ls ≠ [] := by
          intro hn
          subst hn
          simp at hr2
        rw [selectedTextRangeNat_cons, specSpanText_cons l ls r1' c1 r2' c2 hls]
        have hcond : (r1' + 1 = r2' + 1 ∨ 0 < c2) = (r1' = r2' ∨ 0 < c2) := by
          apply propext
          omega
        simp only [hcond]
        exact ih ls c1 r2' c2 (by omega) (by intro h; exact hrc (by omega)) (by simpa using hr2)
          (by simpa using hc1) (by simpa using hc2)

theorem lineAt_natCast (lines : List Line) (r : Nat) :
    lineAt lines (r : Int) = lines.getD r [] := by
  unfold lineAt
  norm_num

theorem min_cast_toNat (c n : Nat) : (min (c : Int) (n : Int)).toNat = min c n := by
  omega

theorem selectedTextRange_cast (lines : List Line) (r1 c1 r2 c2 : Nat) :
    selectedTextRange lines ((r1 : Int), (c1 : Int)) ((r2 : Int), (c2 : Int)) =
      selectedTextRangeNat lines r1 c1 r2 c2 := by
  unfold selectedTextRange selectedTextRangeNat
  dsimp only
  by_cases he : r1 = r2
  · subst he
    rw [if_pos rfl, if_pos rfl]
    by_cases hin : r1 < lines.length ∧ c1 < c2
    · rw [if_pos ⟨Int.natCast_nonneg r1, by exact_mod_cast hin.1, by exact_mod_cast hin.2⟩,
        if_pos hin]
      rw [lineAt_natCast]
      rw [min_cast_toNat c1 (lines.getD r1 []).length, min_cast_toNat c2 (lines.getD r1 []).length]
      by_cases hb2 : min c1 (lines.getD r1 []).length < min c2 (lines.getD r1 []).length
      · rw [if_pos (by omega), if_pos hb2]
      · rw [if_neg (by omega), if_neg hb2]
    · rw [if_neg (by omega), if_neg hin]
  · rw [if_neg (by exact_mod_cast he), if_neg he]
    have hp1 : (if 0 ≤ (r1 : Int) ∧ (r1 : Int) < (lines.length : Int) then
        (lineAt lines (r1 : Int)).drop
          (min (c1 : Int) ((lineAt lines (r1 : Int)).length : Int)).toNat
        else [])
        = (if r1 < lines.length then
            (lines.getD r1 []).drop (min c1 (lines.getD r1 []).length) else []) := by
      by_cases hb : r1 < lines.length
      · rw [if_pos ⟨Int.natCast_nonneg r1, by exact_mod_cast hb⟩, if_pos hb, lineAt_natCast,
          min_cast_toNat]
      · rw [if_neg (by omega), if_neg hb]
    have hp2 : selInterLines lines ((r1 : Int) + 1) ((r2 : Int) - ((r1 : Int) + 1)).toNat
        = selInterNat lines (r1 + 1) (r2 - (r1 + 1)) := by
      have hidx : ((r1 : Int) + 1) = ((r1 + 1 : Nat) : Int) := by push_cast; ring
      have hcnt : (((r2 : Int)) - ((r1 : Int) + 1)).toNat = r2 - (r1 + 1) := by omega
      rw [hcnt, hidx, selInterLines_eq_nat]
    have hp3 : (if 0 ≤ (r2 : Int) ∧ (r2 : Int) < (lines.length : Int) ∧ 0 < (c2 : Int) then
        '\n' :: (lineAt lines (r2 : Int)).take
          (min (c2 : Int) ((lineAt lines (r2 : Int)).length : Int)).toNat
        else [])
        = (if r2 < lines.length ∧ 0 < c2 then
            '\n' :: (lines.getD r2 []).take (min c2 (lines.getD r2 []).length) else []) := by
      by_cases hb : r2 < lines.length ∧ 0 < c2
      · rw [if_pos ⟨Int.natCast_nonneg r2, by exact_mod_cast hb.1, by exact_mod_cast hb.2⟩,
          if_pos hb, lineAt_natCast, min_cast_toNat]
      · rw [if_neg (by omega), if_neg hb]
    rw [hp1, hp2, hp3]

theorem selectedTextRange_same (lines : List Line) (p : Pos) :
    selectedTextRange lines p p = [] := by
  unfold selectedTextRange
  dsimp only
  rw [if_pos rfl, if_neg]
  rintro ⟨_, _, hcc⟩
  omega

theorem span_formula (lines : List Line) (p1 p2 : Pos)
    (hle : p1.1 < p2.1 ∨ (p1.1 = p2.1 ∧ p1.2 ≤ p2.2))
    (h1 : 0 ≤ p1.1 ∧ p1.1 < (lines.length : Int) ∧ 0 ≤ p1.2 ∧
      p1.2 ≤ ((lineAt lines p1.1).length : Int))
    (h2 : 0 ≤ p2.1 ∧ p2.1 < (lines.length : Int) ∧ 0 ≤ p2.2 ∧
      p2.2 ≤ ((lineAt lines p2.1).length : Int)) :
    selectedTextRange lines p1 p2 =
      if p1.1 = p2.1 ∨ 0 < p2.2 then
        specSpanText lines (p1.1.toNat, p1.2.toNat) (p2.1.toNat, p2.2.toNat)
      else
        (specSpanText lines (p1.1.toNat, p1.2.toNat) (p2.1.toNat, p2.2.toNat)).dropLast := by
  obtain ⟨r1, c1⟩ := p1
  obtain ⟨r2, c2⟩ := p2
  dsimp only at *
  obtain ⟨m1, rfl⟩ : ∃ m : Nat, r1 = (m : Int) := ⟨r1.toNat, (Int.toNat_of_nonneg h1.1).symm⟩
  obtain ⟨m2, rfl⟩ : ∃ m : Nat, c1 = (m : Int) :=
    ⟨c1.toNat, (Int.toNat_of_nonneg h1.2.2.1).symm⟩
  obtain ⟨n1, rfl⟩ : ∃ m : Nat, r2 = (m : Int) := ⟨r2.toNat, (Int.toNat_of_nonneg h2.1).symm⟩
  obtain ⟨n2, rfl⟩ : ∃ m : Nat, c2 = (m : Int) :=
    ⟨c2.toNat, (Int.toNat_of_nonneg h2.2.2.1).symm⟩
  simp only [Int.toNat_natCast]
  rw [selectedTextRange_cast]
  have hcond : (((m1 : Int) = (n1 : Int)) ∨ ((0 : Int) < (n2 : Int))) = (m1 = n1 ∨ 0 < n2) := by
    apply propext
    constructor
    · rintro (h | h)
      · exact Or.inl (by exact_mod_cast h)
      · exact Or.inr (by exact_mod_cast h)
    · rintro (h | h)
      · exact Or.inl (by exact_mod_cast h)
      · exact Or.inr (by exact_mod_cast h)
  simp only [hcond]
  have hr : m1 ≤ n1 := by
    rcases hle with h | h
    · exact_mod_cast h.le
    · have := h.1
      omega
  have hrc : m1 = n1 → m2 ≤ n2 := by
    intro he
    rcases hle with h | h
    · omega
    · exact_mod_cast h.2
  have hr2 : n1 < lines.length := by exact_mod_cast h2.2.1
  have hc1 : m2 ≤ (lines.getD m1 []).length := by
    have := h1.2.2.2
    rw [lineAt_natCast] at this
    exact_mod_cast this
  have hc2 : n2 ≤ (lines.getD n1 []).length := by
    have := h2.2.2.2
    rw [lineAt_natCast] at this
    exact_mod_cast this
  exact spanNat_eq m1 lines m2 n1 n2 hr hrc hr2 hc1 hc2

/-- C5 counterexample: for the multi-line selection from (0,0) to (1,0)
over the lines ab and cd, the text in the span (the segment of the
newline-joined document between the two position offsets) is ab followed
by a newline, but getSelectedText returns just ab: the final newline of a
multi-line span ending at column zero is omitted, so the claim that the
selected text is exactly the text in the span fails. -/
theorem getSelectedText_claim_fails_at_col_zero :
    (let bx : Buffer := { lines := ["ab".data, "cd".data], cursorRow := 1, cursorCol := 0,
                          selectionStart := some (0, 0) };
     bx.getSelectionRange = some ((0, 0), (1, 0)) ∧
     bx.getSelectedText = some "ab".data ∧
     specSpanText bx.lines (0, 0) (1, 0) = "ab\n".data ∧
     "ab".data ≠ "ab\n".data) := by
  refine ⟨rfl, rfl, rfl, by decide⟩

/-- C5 amended: with a selection anchor set and both anchor and cursor at
valid positions, getSelectionRange is the pair of anchor and cursor
ordered by row then column (earlier first); getSelectedText is exactly
the text of the span between the two positions in the newline-joined
document, except that a multi-line span ending at column zero loses its
final newline; a same-position selection yields empty text; and the
worked example from the spec holds. -/
theorem selection_spec (b : Buffer) (a1 a2 : Int)
    (hanchor : b.selectionStart = some (a1, a2))
    (hav : 0 ≤ a1 ∧ a1 < (b.lines.length : Int) ∧ 0 ≤ a2 ∧
      a2 ≤ ((lineAt b.lines a1).length : Int))
    (hcv : 0 ≤ b.cursorRow ∧ b.cursorRow < (b.lines.length : Int) ∧ 0 ≤ b.cursorCol ∧
      b.cursorCol ≤ ((lineAt b.lines b.cursorRow).length : Int)) :
    (∃ p q : Pos, b.getSelectionRange = some (p, q) ∧
      (p.1 < q.1 ∨ (p.1 = q.1 ∧ p.2 ≤ q.2)) ∧
      ((p = (a1, a2) ∧ q = (b.cursorRow, b.cursorCol)) ∨
       (p = (b.cursorRow, b.cursorCol) ∧ q = (a1, a2))) ∧
      b.getSelectedText = some (
        if p.1 = q.1 ∨ 0 < q.2 then
          specSpanText b.lines (p.1.toNat, p.2.toNat) (q.1.toNat, q.2.toNat)
        else (specSpanText b.lines (p.1.toNat, p.2.toNat) (q.1.toNat, q.2.toNat)).dropLast)) ∧
    ((a1, a2) = ((b.cursorRow, b.cursorCol) : Pos) → b.getSelectedText = some []) ∧
    (Buffer.getSelectedText
        { lines := ["abc".data, "def".data], cursorRow := 1, cursorCol := 1,
          selectionStart := some (0, 1) } = some "bc\nd".data ∧
     Buffer.getSelectionRange
        { lines := ["abc".data, "def".data], cursorRow := 1, cursorCol := 1,
          selectionStart := some (0, 1) } = some ((0, 1), (1, 1))) := by
  refine ⟨?_, ?_, rfl, rfl⟩
  · by_cases hlt : a1 < b.cursorRow ∨ (a1 = b.cursorRow ∧ a2 < b.cursorCol)
    · have hcalc : b.calculateSelectionRange = some ((a1, a2), (b.cursorRow, b.cursorCol)) := by
        unfold Buffer.calculateSelectionRange
        rw [hanchor]
        dsimp only
        rw [if_pos hlt]
      refine ⟨(a1, a2), (b.cursorRow, b.cursorCol), ?_, ?_, Or.inl ⟨rfl, rfl⟩, ?_⟩
      · show b.calculateSelectionRange = _
        exact hcalc
      · rcases hlt with h | h
        · exact Or.inl h
        · exact Or.inr ⟨h.1, h.2.le⟩
      · unfold Buffer.getSelectedText
        rw [hcalc]
        dsimp only
        congr 1
        apply span_formula b.lines (a1, a2) (b.cursorRow, b.cursorCol) ?_ hav hcv
        rcases hlt with h | h
        · exact Or.inl h
        · exact Or.inr ⟨h.1, h.2.le⟩
    · have hcalc : b.calculateSelectionRange = some ((b.cursorRow, b.cursorCol), (a1, a2)) := by
        unfold Buffer.calculateSelectionRange
        rw [hanchor]
        dsimp only
        rw [if_neg hlt]
      have hord : b.cursorRow < a1 ∨ (b.cursorRow = a1 ∧ b.cursorCol ≤ a2) := by
        push_neg at hlt
        rcases lt_or_eq_of_le hlt.1 with h | h
        · exact Or.inl h
        · exact Or.inr ⟨h, hlt.2 h.symm⟩
      refine ⟨(b.cursorRow, b.cursorCol), (a1, a2), ?_, ?_, Or.inr ⟨rfl, rfl⟩, ?_⟩
      · show b.calculateSelectionRange = _
        exact hcalc
      · exact hord
      · unfold Buffer.getSelectedText
        rw [hcalc]
        dsimp only
        congr 1
        exact span_formula b.lines (b.cursorRow, b.cursorCol) (a1, a2) hord hcv hav
  · intro hsame
    have h1 : a1 = b.cursorRow := congrArg Prod.fst hsame
    have h2 : a2 = b.cursorCol := congrArg Prod.snd hsame
    have hcalc : b.calculateSelectionRange = some ((b.cursorRow, b.cursorCol),
        (b.cursorRow, b.cursorCol)) := by
      unfold Buffer.calculateSelectionRange
      rw [hanchor]
      dsimp only
      rw [h1, h2, if_neg (by omega)]
    unfold Buffer.getSelectedText
    rw [hcalc]
    dsimp only
    rw [selectedTextRange_same]

/-- Witness for the C5 theorem on the worked example buffer. -/
theorem selection_spec_witness :
    Buffer.getSelectedText
      { lines := ["abc".data, "def".data], cursorRow := 1, cursorCol := 1,
        selectionStart := some (0, 1) } = some "bc\nd".data := by
  exact (selection_spec
    { lines := ["abc".data, "def".data], cursorRow := 1, cursorCol := 1,
      selectionStart := some (0, 1) } 0 1 rfl (by decide) (by decide)).2.2.1
